import Mathlib

/-!
Verification of the `cached-middleware-fetch-next` core (`src/index.ts`):
cache-key derivation, the cache-entry codec, the freshness policy and the
`cachedFetch` orchestrator are shallowly embedded below, and the frozen
claims about them are settled as theorems.

Modelling conventions:
* JS strings are Lean `String`s, JS numbers that hold timestamps/seconds are
  `Int` (milliseconds since epoch where the code uses `Date.now()`).
* Header collections are ordered `List (String × String)`; a JS plain object
  used as a string map is an ordered association list where assignment
  updates the value in place (keeping the first-insertion position) and
  otherwise appends — exactly the observable behaviour of a JS object
  under `JSON.stringify`.
* Byte buffers (`Uint8Array`/`ArrayBuffer`) are `List Nat` with each byte
  `< 256`; the platform `TextEncoder`/`TextDecoder`/`Response` UTF-8
  conversions are modelled by an explicit UTF-8 codec.
-/

set_option maxHeartbeats 1600000

/-- JS `String.prototype.toLowerCase` (ASCII range, as used for header
names and methods), as a kernel-reducible character map. -/
def strLower (s : String) : String := String.mk (s.data.map Char.toLower)

/-- JS `String.prototype.toUpperCase` (ASCII range). -/
def strUpper (s : String) : String := String.mk (s.data.map Char.toUpper)

/-- JS truthiness of an optional number field (`undefined` and `0` are falsy). -/
def jsFalsyInt : Option Int → Bool
  | none => true
  | some n => n = 0

/-- JS truthiness of an optional string (`undefined` and `""` are falsy). -/
def jsFalsyStr : Option String → Bool
  | none => true
  | some s => s = ""

/-- JS object assignment `o[k] = v` on a string-keyed object observed as an
ordered association list: an existing key keeps its position and gets the new
value, a new key is appended. -/
def objSet (o : List (String × String)) (k v : String) : List (String × String) :=
  if o.any (fun p => p.1 = k) then
    o.map (fun p => if p.1 = k then (k, v) else p)
  else
    o ++ [(k, v)]

/-- Is `k` (already lower-cased) one of the trace-context header names that
`processHeadersForCacheKey` skips? -/
def isTraceHeaderName (k : String) : Bool :=
  k = "traceparent" || k = "tracestate"

/-- `processHeadersForCacheKey` (src/index.ts:669-702): convert the header
pairs to a plain object, lower-casing every name and skipping
`traceparent` / `tracestate` (case-insensitively). The list models the
array / plain-object / pre-normalised `Headers` forms of `HeadersInit`,
all of which the source handles by the same per-pair loop. -/
def processHeadersForCacheKey (headers : List (String × String)) :
    List (String × String) :=
  headers.foldl
    (fun headerObj kv =>
      let lowerKey := strLower kv.1
      if isTraceHeaderName lowerKey then headerObj
      else objSet headerObj lowerKey kv.2)
    []

/-- The header pairs that survive the trace-context filter (the claims state
header-set equality "after removing every header whose name case-insensitively
equals traceparent or tracestate"). -/
def removeTraceHeaders (headers : List (String × String)) :
    List (String × String) :=
  headers.filter (fun kv => !isTraceHeaderName (strLower kv.1))

theorem processHeaders_foldl (headers : List (String × String))
    (acc : List (String × String)) :
    headers.foldl
      (fun headerObj kv =>
        let lowerKey := strLower kv.1
        if isTraceHeaderName lowerKey then headerObj
        else objSet headerObj lowerKey kv.2)
      acc
    = (removeTraceHeaders headers).foldl
        (fun headerObj kv => objSet headerObj (strLower kv.1) kv.2) acc := by
  induction headers generalizing acc with
  | nil => rfl
  | cons kv rest ih =>
    simp only [removeTraceHeaders, List.filter_cons] at *
    by_cases h : isTraceHeaderName (strLower kv.1)
    · simp [h, List.foldl_cons, ih]
    · simp [h, List.foldl_cons, ih, removeTraceHeaders]

/-- Header processing only depends on the headers that survive the
trace-context filter. -/
theorem processHeaders_eq_of_removeTrace_eq
    {h1 h2 : List (String × String)}
    (h : removeTraceHeaders h1 = removeTraceHeaders h2) :
    processHeadersForCacheKey h1 = processHeadersForCacheKey h2 := by
  unfold processHeadersForCacheKey
  rw [processHeaders_foldl, processHeaders_foldl, h]

/-! ### UTF-8 codec

Model of the platform `TextEncoder` / `TextDecoder` / `Response` body
conversions used by the source (`new Response(string)` encodes UTF-8,
`response.text()` decodes UTF-8 with U+FFFD replacement on malformed
input). -/

/-- UTF-8 encoding of one Unicode scalar value. -/
def utf8EncodeChar (c : Char) : List Nat :=
  let n := c.toNat
  if n < 128 then [n]
  else if n < 2048 then [192 + n / 64, 128 + n % 64]
  else if n < 65536 then [224 + n / 4096, 128 + (n / 64) % 64, 128 + n % 64]
  else [240 + n / 262144, 128 + (n / 4096) % 64, 128 + (n / 64) % 64, 128 + n % 64]

/-- UTF-8 encoding of a character list. -/
def utf8EncodeList : List Char → List Nat
  | [] => []
  | c :: cs => utf8EncodeChar c ++ utf8EncodeList cs

/-- `TextEncoder.encode` / the bytes a `Response` holds for a string body. -/
def strToBytes (s : String) : List Nat :=
  utf8EncodeList s.data

/-- The U+FFFD replacement character emitted for malformed UTF-8. -/
def replChar : Char := Char.ofNat 65533

/-- Is `b` a UTF-8 continuation byte? -/
def isCont (b : Nat) : Bool := 128 ≤ b && b < 192

/-- One step of lossy UTF-8 decoding: given a leading byte and the remaining
bytes, produce the decoded character (U+FFFD for malformed sequences) and
the bytes left over. -/
def utf8Step (b : Nat) (rest : List Nat) : Char × List Nat :=
  if b < 128 then (Char.ofNat b, rest)
  else if b < 192 then (replChar, rest)
  else if b < 224 then
    match rest with
    | b2 :: rest2 =>
      if isCont b2 then (Char.ofNat ((b - 192) * 64 + (b2 - 128)), rest2)
      else (replChar, b2 :: rest2)
    | [] => (replChar, [])
  else if b < 240 then
    match rest with
    | b2 :: b3 :: rest3 =>
      if isCont b2 && isCont b3 then
        (Char.ofNat ((b - 224) * 4096 + (b2 - 128) * 64 + (b3 - 128)), rest3)
      else (replChar, b2 :: b3 :: rest3)
    | [b2] => (replChar, [b2])
    | [] => (replChar, [])
  else if b < 248 then
    match rest with
    | b2 :: b3 :: b4 :: rest4 =>
      if isCont b2 && isCont b3 && isCont b4 then
        (Char.ofNat
            ((b - 240) * 262144 + (b2 - 128) * 4096 + (b3 - 128) * 64 +
              (b4 - 128)), rest4)
      else (replChar, b2 :: b3 :: b4 :: rest4)
    | [b2, b3] => (replChar, [b2, b3])
    | [b2] => (replChar, [b2])
    | [] => (replChar, [])
  else (replChar, rest)

theorem utf8Step_snd_le (b : Nat) (rest : List Nat) :
    (utf8Step b rest).2.length ≤ rest.length := by
  unfold utf8Step
  repeat' split
  all_goals simp_all
  all_goals omega

/-- Lossy UTF-8 decoding (replacement character for malformed sequences),
modelling `TextDecoder.decode` / `response.text()`. -/
def utf8DecodeList : List Nat → List Char
  | [] => []
  | b :: rest => (utf8Step b rest).1 :: utf8DecodeList (utf8Step b rest).2
termination_by l => l.length
decreasing_by
  exact Nat.lt_succ_of_le (utf8Step_snd_le b rest)

/-- `TextDecoder.decode` as a `String`. -/
def bytesToStr (l : List Nat) : String :=
  String.mk (utf8DecodeList l)

theorem char_toNat_lt_limit (c : Char) : c.toNat < 1114112 := by
  rcases c.valid with h | ⟨_, h⟩
  · have h2 : c.val.toNat < 55296 := h
    simp [Char.toNat]; omega
  · have h2 : c.val.toNat < 1114112 := h
    simp [Char.toNat]; omega

theorem utf8DecodeList_cons (b : Nat) (rest : List Nat) :
    utf8DecodeList (b :: rest)
      = (utf8Step b rest).1 :: utf8DecodeList (utf8Step b rest).2 := by
  rw [utf8DecodeList]

theorem utf8Step_one (b1 : Nat) (rest : List Nat) (h1 : b1 < 128) :
    utf8Step b1 rest = (Char.ofNat b1, rest) := by
  unfold utf8Step
  rw [if_pos h1]

theorem utf8Step_two (b1 b2 : Nat) (rest : List Nat) (h1 : 192 ≤ b1)
    (h2 : b1 < 224) (h3 : isCont b2 = true) :
    utf8Step b1 (b2 :: rest)
      = (Char.ofNat ((b1 - 192) * 64 + (b2 - 128)), rest) := by
  unfold utf8Step
  rw [if_neg (by omega), if_neg (by omega), if_pos (by omega)]
  simp [h3]

theorem utf8Step_three (b1 b2 b3 : Nat) (rest : List Nat) (h1 : 224 ≤ b1)
    (h2 : b1 < 240) (h3 : isCont b2 = true) (h4 : isCont b3 = true) :
    utf8Step b1 (b2 :: b3 :: rest)
      = (Char.ofNat ((b1 - 224) * 4096 + (b2 - 128) * 64 + (b3 - 128)),
          rest) := by
  unfold utf8Step
  rw [if_neg (by omega), if_neg (by omega), if_neg (by omega),
    if_pos (by omega)]
  simp [h3, h4]

theorem utf8Step_four (b1 b2 b3 b4 : Nat) (rest : List Nat) (h1 : 240 ≤ b1)
    (h2 : b1 < 248) (h3 : isCont b2 = true) (h4 : isCont b3 = true)
    (h5 : isCont b4 = true) :
    utf8Step b1 (b2 :: b3 :: b4 :: rest)
      = (Char.ofNat
            ((b1 - 240) * 262144 + (b2 - 128) * 4096 + (b3 - 128) * 64 +
              (b4 - 128)), rest) := by
  unfold utf8Step
  rw [if_neg (by omega), if_neg (by omega), if_neg (by omega),
    if_neg (by omega), if_pos (by omega)]
  simp [h3, h4, h5]

theorem utf8DecodeList_encodeChar (c : Char) (rest : List Nat) :
    utf8DecodeList (utf8EncodeChar c ++ rest) = c :: utf8DecodeList rest := by
  have hc : c.toNat < 1114112 := char_toNat_lt_limit c
  unfold utf8EncodeChar
  by_cases h1 : c.toNat < 128
  · simp only [if_pos h1, List.cons_append, List.nil_append]
    rw [utf8DecodeList_cons, utf8Step_one _ _ h1, Char.ofNat_toNat]
  · by_cases h2 : c.toNat < 2048
    · simp only [if_neg h1, if_pos h2, List.cons_append, List.nil_append]
      rw [utf8DecodeList_cons,
        utf8Step_two _ _ _ (by omega) (by omega) (by simp [isCont]; omega)]
      have ev : (192 + c.toNat / 64 - 192) * 64 + (128 + c.toNat % 64 - 128)
          = c.toNat := by omega
      rw [ev, Char.ofNat_toNat]
    · by_cases h3 : c.toNat < 65536
      · simp only [if_neg h1, if_neg h2, if_pos h3, List.cons_append,
          List.nil_append]
        rw [utf8DecodeList_cons,
          utf8Step_three _ _ _ _ (by omega) (by omega)
            (by simp [isCont]; omega) (by simp [isCont]; omega)]
        have ev : (224 + c.toNat / 4096 - 224) * 4096 +
            (128 + c.toNat / 64 % 64 - 128) * 64 + (128 + c.toNat % 64 - 128)
            = c.toNat := by omega
        rw [ev, Char.ofNat_toNat]
      · simp only [if_neg h1, if_neg h2, if_neg h3, List.cons_append,
          List.nil_append]
        rw [utf8DecodeList_cons,
          utf8Step_four _ _ _ _ _ (by omega) (by omega)
            (by simp [isCont]; omega) (by simp [isCont]; omega)
            (by simp [isCont]; omega)]
        have ev : (240 + c.toNat / 262144 - 240) * 262144 +
            (128 + c.toNat / 4096 % 64 - 128) * 4096 +
            (128 + c.toNat / 64 % 64 - 128) * 64 + (128 + c.toNat % 64 - 128)
            = c.toNat := by omega
        rw [ev, Char.ofNat_toNat]

/-- UTF-8 decoding inverts UTF-8 encoding on character lists. -/
theorem utf8DecodeList_encodeList (cs : List Char) :
    utf8DecodeList (utf8EncodeList cs) = cs := by
  induction cs with
  | nil => rw [utf8EncodeList, utf8DecodeList]
  | cons c cs ih =>
    simp only [utf8EncodeList]
    rw [utf8DecodeList_encodeChar, ih]

/-- UTF-8 decoding inverts UTF-8 encoding on strings. -/
theorem bytesToStr_strToBytes (s : String) : bytesToStr (strToBytes s) = s := by
  simp only [bytesToStr, strToBytes, utf8DecodeList_encodeList]

/-! ### Base64 codec

`toBase64` / `fromBase64` (src/index.ts:905-933): standard RFC 4648 base64
with `=` padding, as produced by `Buffer.from(bytes).toString('base64')`
and consumed by `Buffer.from(b64, 'base64')`. -/

/-- Base64 alphabet: sextet value to character. -/
def b64Char (n : Nat) : Char :=
  if n < 26 then Char.ofNat (65 + n)
  else if n < 52 then Char.ofNat (97 + (n - 26))
  else if n < 62 then Char.ofNat (48 + (n - 52))
  else if n = 62 then '+'
  else '/'

/-- Base64 alphabet: character back to sextet value. -/
def b64Val (c : Char) : Nat :=
  if 65 ≤ c.toNat ∧ c.toNat ≤ 90 then c.toNat - 65
  else if 97 ≤ c.toNat ∧ c.toNat ≤ 122 then c.toNat - 97 + 26
  else if 48 ≤ c.toNat ∧ c.toNat ≤ 57 then c.toNat - 48 + 52
  else if c = '+' then 62
  else 63

/-- Base64-encode a byte list, three bytes to four characters, padded. -/
def b64EncodeList : List Nat → List Char
  | [] => []
  | [a] => [b64Char (a / 4), b64Char (a % 4 * 16), '=', '=']
  | [a, b] =>
      [b64Char (a / 4), b64Char (a % 4 * 16 + b / 16), b64Char (b % 16 * 4),
        '=']
  | a :: b :: c :: rest =>
      b64Char (a / 4) :: b64Char (a % 4 * 16 + b / 16) ::
        b64Char (b % 16 * 4 + c / 64) :: b64Char (c % 64) :: b64EncodeList rest

/-- Base64-decode a character list, four characters to three bytes,
understanding `=` padding. -/
def b64DecodeList : List Char → List Nat
  | c1 :: c2 :: c3 :: c4 :: rest =>
    if c3 = '=' then [b64Val c1 * 4 + b64Val c2 / 16]
    else if c4 = '=' then
      [b64Val c1 * 4 + b64Val c2 / 16, b64Val c2 % 16 * 16 + b64Val c3 / 4]
    else
      (b64Val c1 * 4 + b64Val c2 / 16) ::
        (b64Val c2 % 16 * 16 + b64Val c3 / 4) ::
        (b64Val c3 % 4 * 64 + b64Val c4) :: b64DecodeList rest
  | _ => []

/-- `toBase64` (src/index.ts:905-919). -/
def toBase64 (bytes : List Nat) : String :=
  String.mk (b64EncodeList bytes)

/-- `fromBase64` (src/index.ts:921-933). -/
def fromBase64 (b64 : String) : List Nat :=
  b64DecodeList b64.data

theorem b64Val_b64Char_fin :
    ∀ m : Fin 64, b64Val (b64Char m.val) = m.val ∧ b64Char m.val ≠ '=' := by
  decide

theorem b64Val_b64Char {n : Nat} (h : n < 64) : b64Val (b64Char n) = n :=
  (b64Val_b64Char_fin ⟨n, h⟩).1

theorem b64Char_ne_eq {n : Nat} (h : n < 64) : b64Char n ≠ '=' :=
  (b64Val_b64Char_fin ⟨n, h⟩).2

/-- Base64 decoding inverts base64 encoding on byte lists. -/
theorem b64DecodeList_encodeList :
    ∀ (l : List Nat), (∀ x ∈ l, x < 256) →
      b64DecodeList (b64EncodeList l) = l
  | [] => fun _ => by simp [b64EncodeList, b64DecodeList]
  | [a] => fun h => by
    have ha : a < 256 := h a (by simp)
    rw [b64EncodeList, b64DecodeList]
    rw [if_pos rfl, b64Val_b64Char (by omega), b64Val_b64Char (by omega)]
    congr 1
    omega
  | [a, b] => fun h => by
    have ha : a < 256 := h a (by simp)
    have hb : b < 256 := h b (by simp)
    rw [b64EncodeList, b64DecodeList]
    rw [if_neg (b64Char_ne_eq (by omega)), if_pos rfl,
      b64Val_b64Char (by omega), b64Val_b64Char (by omega),
      b64Val_b64Char (by omega)]
    congr 1
    · omega
    · congr 1
      omega
  | a :: b :: c :: d :: rest => fun h => by
    have ha : a < 256 := h a (by simp)
    have hb : b < 256 := h b (by simp)
    have hc : c < 256 := h c (by simp)
    have ih := b64DecodeList_encodeList (d :: rest)
      (fun x hx => h x (by simp at hx ⊢; tauto))
    rw [b64EncodeList, b64DecodeList]
    rw [if_neg (b64Char_ne_eq (by omega)), if_neg (b64Char_ne_eq (by omega)),
      b64Val_b64Char (by omega), b64Val_b64Char (by omega),
      b64Val_b64Char (by omega), b64Val_b64Char (by omega)]
    rw [ih]
    congr 1
    · omega
    · congr 1
      · omega
      · congr 1
        omega
  | [a, b, c] => fun h => by
    have ha : a < 256 := h a (by simp)
    have hb : b < 256 := h b (by simp)
    have hc : c < 256 := h c (by simp)
    rw [b64EncodeList, b64EncodeList, b64DecodeList]
    rw [if_neg (b64Char_ne_eq (by omega)), if_neg (b64Char_ne_eq (by omega)),
      b64Val_b64Char (by omega), b64Val_b64Char (by omega),
      b64Val_b64Char (by omega), b64Val_b64Char (by omega)]
    rw [show b64DecodeList ([] : List Char) = [] from by simp [b64DecodeList]]
    congr 1
    · omega
    · congr 1
      · omega
      · congr 1
        omega

/-- Base64 decoding inverts base64 encoding, at the `String` level used by
the cache entry codec. -/
theorem fromBase64_toBase64 (bytes : List Nat) (h : ∀ x ∈ bytes, x < 256) :
    fromBase64 (toBase64 bytes) = bytes := by
  simpa [fromBase64, toBase64] using b64DecodeList_encodeList bytes h

/-! ### JSON serialisation

`generateCacheKey` hashes `JSON.stringify(keyComponents)` where the
components are strings, one plain string-map object and one string array.
The serialiser below is `JSON.stringify` restricted to those shapes:
double-quoted strings with the standard escapes, objects in insertion
order, no whitespace. -/

def bslashChar : Char := Char.ofNat 92

def quoteChar : Char := Char.ofNat 34

def lbraceChar : Char := Char.ofNat 123

def rbraceChar : Char := Char.ofNat 125

/-- Lower-case hex digit for a nibble. -/
def hexDigitChar (n : Nat) : Char :=
  if n < 10 then Char.ofNat (48 + n) else Char.ofNat (87 + n)

/-- Numeric value of a lower-case hex digit. -/
def hexVal (c : Char) : Nat :=
  if 48 ≤ c.toNat ∧ c.toNat ≤ 57 then c.toNat - 48
  else if 97 ≤ c.toNat ∧ c.toNat ≤ 102 then c.toNat - 87
  else 0

/-- The escape sequence `JSON.stringify` emits for one character. -/
def jsonEscapeChar (c : Char) : List Char :=
  if c = quoteChar then [bslashChar, quoteChar]
  else if c = bslashChar then [bslashChar, bslashChar]
  else if c = Char.ofNat 8 then [bslashChar, 'b']
  else if c = Char.ofNat 12 then [bslashChar, 'f']
  else if c = Char.ofNat 10 then [bslashChar, 'n']
  else if c = Char.ofNat 13 then [bslashChar, 'r']
  else if c = Char.ofNat 9 then [bslashChar, 't']
  else if c.toNat < 32 then
    [bslashChar, 'u', '0', '0', hexDigitChar (c.toNat / 16),
      hexDigitChar (c.toNat % 16)]
  else [c]

def jsonEscapeList : List Char → List Char
  | [] => []
  | c :: cs => jsonEscapeChar c ++ jsonEscapeList cs

/-- A double-quoted JSON string literal, as a character list. -/
def jsonStrL (s : String) : List Char :=
  quoteChar :: (jsonEscapeList s.data ++ [quoteChar])

/-- Comma-join of already-serialised items. -/
def jsonCommaJoin : List (List Char) → List Char
  | [] => []
  | [x] => x
  | x :: y :: xs => x ++ ',' :: jsonCommaJoin (y :: xs)

/-- A JSON array of strings. -/
def jsonStrArrL (xs : List String) : List Char :=
  '[' :: (jsonCommaJoin (xs.map jsonStrL) ++ [']'])

/-- A JSON object with string values, in insertion order. -/
def jsonObjL (o : List (String × String)) : List Char :=
  lbraceChar ::
    (jsonCommaJoin (o.map (fun kv => jsonStrL kv.1 ++ ':' :: jsonStrL kv.2)) ++
      [rbraceChar])

/-- Inverse of the named escapes of `jsonEscapeChar`. -/
def jsonUnescapeEsc (c : Char) : Char :=
  if c = 'b' then Char.ofNat 8
  else if c = 'f' then Char.ofNat 12
  else if c = 'n' then Char.ofNat 10
  else if c = 'r' then Char.ofNat 13
  else if c = 't' then Char.ofNat 9
  else c

/-- One step of un-escaping a JSON string body: consume one escape sequence
or one plain character. -/
def jsonUnescStep (c : Char) (rest : List Char) : Char × List Char :=
  if c = bslashChar then
    match rest with
    | [] => (c, [])
    | e :: rest2 =>
      if e = 'u' then
        match rest2 with
        | _ :: _ :: h1 :: h2 :: rest3 =>
          (Char.ofNat (hexVal h1 * 16 + hexVal h2), rest3)
        | _ => (e, rest2)
      else (jsonUnescapeEsc e, rest2)
  else (c, rest)

theorem jsonUnescStep_snd_le (c : Char) (rest : List Char) :
    (jsonUnescStep c rest).2.length ≤ rest.length := by
  unfold jsonUnescStep
  repeat' split
  all_goals simp_all
  all_goals omega

/-- Un-escape a JSON string body (left inverse of `jsonEscapeList`). -/
def jsonUnescapeList : List Char → List Char
  | [] => []
  | c :: rest =>
    (jsonUnescStep c rest).1 :: jsonUnescapeList (jsonUnescStep c rest).2
termination_by l => l.length
decreasing_by
  exact Nat.lt_succ_of_le (jsonUnescStep_snd_le _ _)

theorem jsonUnescapeList_cons (c : Char) (rest : List Char) :
    jsonUnescapeList (c :: rest)
      = (jsonUnescStep c rest).1 ::
          jsonUnescapeList (jsonUnescStep c rest).2 := by
  rw [jsonUnescapeList]

theorem hexVal_hexDigitChar_fin :
    ∀ n : Fin 16, hexVal (hexDigitChar n.val) = n.val := by
  decide

theorem jsonUnescStep_esc (e : Char) (rest : List Char) (he : e ≠ 'u') :
    jsonUnescStep bslashChar (e :: rest) = (jsonUnescapeEsc e, rest) := by
  unfold jsonUnescStep
  rw [if_pos rfl]
  simp [he]

theorem jsonUnescStep_u (h1 h2 : Char) (rest : List Char) :
    jsonUnescStep bslashChar ('u' :: '0' :: '0' :: h1 :: h2 :: rest)
      = (Char.ofNat (hexVal h1 * 16 + hexVal h2), rest) := by
  unfold jsonUnescStep
  rw [if_pos rfl]
  simp

theorem jsonUnescStep_plain (c : Char) (rest : List Char)
    (h : c ≠ bslashChar) : jsonUnescStep c rest = (c, rest) := by
  unfold jsonUnescStep
  rw [if_neg h]

theorem jsonUnescapeList_escapeChar (c : Char) (rest : List Char) :
    jsonUnescapeList (jsonEscapeChar c ++ rest) = c :: jsonUnescapeList rest := by
  by_cases hq : c = quoteChar
  · subst hq
    rw [show jsonEscapeChar quoteChar = [bslashChar, quoteChar] from by decide]
    rw [List.cons_append, List.cons_append, List.nil_append,
      jsonUnescapeList_cons, jsonUnescStep_esc _ _ (by decide)]
    rw [show jsonUnescapeEsc quoteChar = quoteChar from by decide]
  · by_cases hb : c = bslashChar
    · subst hb
      rw [show jsonEscapeChar bslashChar = [bslashChar, bslashChar] from by
        decide]
      rw [List.cons_append, List.cons_append, List.nil_append,
        jsonUnescapeList_cons, jsonUnescStep_esc _ _ (by decide)]
      rw [show jsonUnescapeEsc bslashChar = bslashChar from by decide]
    · by_cases h8 : c = Char.ofNat 8
      · subst h8
        rw [show jsonEscapeChar (Char.ofNat 8) = [bslashChar, 'b'] from by
          decide]
        rw [List.cons_append, List.cons_append, List.nil_append,
          jsonUnescapeList_cons, jsonUnescStep_esc _ _ (by decide)]
        rw [show jsonUnescapeEsc 'b' = Char.ofNat 8 from by decide]
      · by_cases h12 : c = Char.ofNat 12
        · subst h12
          rw [show jsonEscapeChar (Char.ofNat 12) = [bslashChar, 'f'] from by
            decide]
          rw [List.cons_append, List.cons_append, List.nil_append,
            jsonUnescapeList_cons, jsonUnescStep_esc _ _ (by decide)]
          rw [show jsonUnescapeEsc 'f' = Char.ofNat 12 from by decide]
        · by_cases h10 : c = Char.ofNat 10
          · subst h10
            rw [show jsonEscapeChar (Char.ofNat 10) = [bslashChar, 'n'] from by
              decide]
            rw [List.cons_append, List.cons_append, List.nil_append,
              jsonUnescapeList_cons, jsonUnescStep_esc _ _ (by decide)]
            rw [show jsonUnescapeEsc 'n' = Char.ofNat 10 from by decide]
          · by_cases h13 : c = Char.ofNat 13
            · subst h13
              rw [show jsonEscapeChar (Char.ofNat 13) = [bslashChar, 'r']
                from by decide]
              rw [List.cons_append, List.cons_append, List.nil_append,
                jsonUnescapeList_cons, jsonUnescStep_esc _ _ (by decide)]
              rw [show jsonUnescapeEsc 'r' = Char.ofNat 13 from by decide]
            · by_cases h9 : c = Char.ofNat 9
              · subst h9
                rw [show jsonEscapeChar (Char.ofNat 9) = [bslashChar, 't']
                  from by decide]
                rw [List.cons_append, List.cons_append, List.nil_append,
                  jsonUnescapeList_cons, jsonUnescStep_esc _ _ (by decide)]
                rw [show jsonUnescapeEsc 't' = Char.ofNat 9 from by decide]
              · by_cases h32 : c.toNat < 32
                · rw [show jsonEscapeChar c
                      = [bslashChar, 'u', '0', '0', hexDigitChar (c.toNat / 16),
                          hexDigitChar (c.toNat % 16)] from by
                    unfold jsonEscapeChar
                    rw [if_neg hq, if_neg hb, if_neg h8, if_neg h12,
                      if_neg h10, if_neg h13, if_neg h9, if_pos h32]]
                  rw [List.cons_append, List.cons_append, List.cons_append,
                    List.cons_append, List.cons_append, List.cons_append,
                    List.nil_append, jsonUnescapeList_cons, jsonUnescStep_u]
                  have v1 : hexVal (hexDigitChar (c.toNat / 16)) = c.toNat / 16 :=
                    hexVal_hexDigitChar_fin ⟨c.toNat / 16, by omega⟩
                  have v2 : hexVal (hexDigitChar (c.toNat % 16)) = c.toNat % 16 :=
                    hexVal_hexDigitChar_fin ⟨c.toNat % 16, by omega⟩
                  rw [v1, v2, show c.toNat / 16 * 16 + c.toNat % 16 = c.toNat from
                    by omega, Char.ofNat_toNat]
                · rw [show jsonEscapeChar c = [c] from by
                    unfold jsonEscapeChar
                    rw [if_neg hq, if_neg hb, if_neg h8, if_neg h12,
                      if_neg h10, if_neg h13, if_neg h9, if_neg h32]]
                  rw [List.cons_append, List.nil_append,
                    jsonUnescapeList_cons, jsonUnescStep_plain c rest hb]

/-- Un-escaping inverts escaping on character lists. -/
theorem jsonUnescapeList_escapeList (l : List Char) :
    jsonUnescapeList (jsonEscapeList l) = l := by
  induction l with
  | nil => rw [jsonEscapeList, jsonUnescapeList]
  | cons c cs ih =>
    rw [jsonEscapeList, jsonUnescapeList_escapeChar, ih]

theorem jsonEscapeList_injective {l1 l2 : List Char}
    (h : jsonEscapeList l1 = jsonEscapeList l2) : l1 = l2 := by
  have := congrArg jsonUnescapeList h
  rwa [jsonUnescapeList_escapeList, jsonUnescapeList_escapeList] at this

/-- JSON string literals are injective in the string serialised. -/
theorem jsonStrL_injective {s1 s2 : String} (h : jsonStrL s1 = jsonStrL s2) :
    s1 = s2 := by
  unfold jsonStrL at h
  have h2 := List.cons.inj h
  have h3 := List.append_cancel_right h2.2
  have h4 := jsonEscapeList_injective h3
  cases s1 with
  | mk d1 =>
    cases s2 with
    | mk d2 =>
      simp only at h4
      rw [h4]

/-! ### SHA-256

`sha256` (src/index.ts:707-721) defers to the platform digest primitive
(`crypto.subtle.digest('SHA-256', ...)` / `createHash('sha256')`) over the
UTF-8 bytes of the message and hex-encodes the digest in lower case. The
primitive itself is modelled here by the standard FIPS 180-4 algorithm on
`Nat` words reduced mod `2^32`. -/

def w32 (x : Nat) : Nat := x % 4294967296

def rotr32 (x n : Nat) : Nat := w32 (x / 2 ^ n + x % 2 ^ n * 2 ^ (32 - n))

def shr32 (x n : Nat) : Nat := x / 2 ^ n

def bigSigma0 (x : Nat) : Nat :=
  Nat.xor (Nat.xor (rotr32 x 2) (rotr32 x 13)) (rotr32 x 22)

def bigSigma1 (x : Nat) : Nat :=
  Nat.xor (Nat.xor (rotr32 x 6) (rotr32 x 11)) (rotr32 x 25)

def smallSigma0 (x : Nat) : Nat :=
  Nat.xor (Nat.xor (rotr32 x 7) (rotr32 x 18)) (shr32 x 3)

def smallSigma1 (x : Nat) : Nat :=
  Nat.xor (Nat.xor (rotr32 x 17) (rotr32 x 19)) (shr32 x 10)

def chFn (x y z : Nat) : Nat :=
  Nat.xor (Nat.land x y) (Nat.land (Nat.xor x 4294967295) z)

def majFn (x y z : Nat) : Nat :=
  Nat.xor (Nat.xor (Nat.land x y) (Nat.land x z)) (Nat.land y z)

def sha256K : List Nat :=
  [1116352408, 1899447441, 3049323471, 3921009573, 961987163,
   1508970993, 2453635748, 2870763221, 3624381080, 310598401,
   607225278, 1426881987, 1925078388, 2162078206, 2614888103,
   3248222580, 3835390401, 4022224774, 264347078, 604807628,
   770255983, 1249150122, 1555081692, 1996064986, 2554220882,
   2821834349, 2952996808, 3210313671, 3336571891, 3584528711,
   113926993, 338241895, 666307205, 773529912, 1294757372,
   1396182291, 1695183700, 1986661051, 2177026350, 2456956037,
   2730485921, 2820302411, 3259730800, 3345764771, 3516065817,
   3600352804, 4094571909, 275423344, 430227734, 506948616,
   659060556, 883997877, 958139571, 1322822218, 1537002063,
   1747873779, 1955562222, 2024104815, 2227730452, 2361852424,
   2428436474, 2756734187, 3204031479, 3329325298]

def sha256H0 : List Nat :=
  [1779033703, 3144134277, 1013904242, 2773480762, 1359893119,
   2600822924, 528734635, 1541459225]

/-- Big-endian 8-byte encoding of the bit length. -/
def be64 (n : Nat) : List Nat :=
  [n / 72057594037927936 % 256, n / 281474976710656 % 256,
   n / 1099511627776 % 256, n / 4294967296 % 256, n / 16777216 % 256,
   n / 65536 % 256, n / 256 % 256, n % 256]

/-- FIPS 180-4 message padding. -/
def sha256Pad (msg : List Nat) : List Nat :=
  let L := msg.length
  let k := (56 + 64 - (L + 1) % 64) % 64
  msg ++ 128 :: (List.replicate k 0 ++ be64 (L * 8))

/-- Big-endian 32-bit words from bytes. -/
def bytesToWords : List Nat → List Nat
  | a :: b :: c :: d :: rest =>
      (a * 16777216 + b * 65536 + c * 256 + d) :: bytesToWords rest
  | _ => []

/-- Split a word list into 16-word blocks. -/
def toBlocks16 (l : List Nat) : List (List Nat) :=
  if h : l = [] then [] else l.take 16 :: toBlocks16 (l.drop 16)
termination_by l.length
decreasing_by
  have : l.length ≠ 0 := fun hl => h (List.eq_nil_of_length_eq_zero hl)
  simp
  omega

/-- Append the next word of the message schedule. -/
def sha256ExtendStep (w : List Nat) : List Nat :=
  let n := w.length
  w ++ [w32 (smallSigma1 (w.getD (n - 2) 0) + w.getD (n - 7) 0 +
    smallSigma0 (w.getD (n - 15) 0) + w.getD (n - 16) 0)]

def iterN (f : List Nat → List Nat) : Nat → List Nat → List Nat
  | 0, w => w
  | n + 1, w => iterN f n (f w)

/-- One round of the compression function on the 8-word working state. -/
def sha256Round (state : List Nat) (kw : Nat × Nat) : List Nat :=
  match state with
  | [a, b, c, d, e, f, g, hh] =>
    let t1 := w32 (hh + bigSigma1 e + chFn e f g + kw.1 + kw.2)
    let t2 := w32 (bigSigma0 a + majFn a b c)
    [w32 (t1 + t2), a, b, c, w32 (d + t1), e, f, g]
  | other => other

/-- Process one 16-word block. -/
def sha256Block (hs : List Nat) (block : List Nat) : List Nat :=
  let w := iterN sha256ExtendStep 48 block
  let out := (sha256K.zip w).foldl sha256Round hs
  (hs.zip out).map (fun p => w32 (p.1 + p.2))

/-- SHA-256 of a byte list, as eight 32-bit words. -/
def sha256Words (msg : List Nat) : List Nat :=
  (toBlocks16 (bytesToWords (sha256Pad msg))).foldl sha256Block sha256H0

/-- Lower-case hex of one 32-bit word. -/
def wordToHex (n : Nat) : List Char :=
  [hexDigitChar (n / 268435456 % 16), hexDigitChar (n / 16777216 % 16),
   hexDigitChar (n / 1048576 % 16), hexDigitChar (n / 65536 % 16),
   hexDigitChar (n / 4096 % 16), hexDigitChar (n / 256 % 16),
   hexDigitChar (n / 16 % 16), hexDigitChar (n % 16)]

/-- `sha256` (src/index.ts:707-721): lower-case hex SHA-256 digest of the
UTF-8 bytes of `message`. -/
def sha256 (message : String) : String :=
  String.mk ((sha256Words (strToBytes message)).foldr
    (fun w acc => wordToHex w ++ acc) [])

/-! ### Request bodies and `processBodyForCacheKey` -/

/-- A `FormData` entry value: string entries are serialised, `File` entries
are skipped by the source. -/
inductive FormValue where
  | str (s : String)
  | file
deriving DecidableEq, Repr

/-- The `BodyInit` shapes dispatched on by `processBodyForCacheKey`
(src/index.ts:589-662): `Uint8Array`, `ReadableStream`, `FormData`,
`URLSearchParams`, `Blob`, `string`, and the generic fallback (carried here
as its `JSON.stringify` image). A stream carries its chunks and whether
reading it fails. -/
inductive BodyInit where
  | bytes (b : List Nat)
  | stream (chunks : List (List Nat)) (fails : Bool)
  | form (entries : List (String × FormValue))
  | urlParams (entries : List (String × String))
  | blob (text : String) (mediaType : String)
  | str (s : String)
  | other (json : String)
deriving DecidableEq, Repr

/-- Result of body normalisation: the string chunks hashed into the cache
key, and the replayable body substituted for single-use sources. -/
structure ProcessedBody where
  chunks : List String
  ogBody : Option BodyInit
deriving DecidableEq, Repr

def concatBytes : List (List Nat) → List Nat
  | [] => []
  | c :: cs => c ++ concatBytes cs

def formEntryStr (kv : String × FormValue) : Option String :=
  match kv.2 with
  | .str v => some (kv.1 ++ "=" ++ v)
  | .file => none

/-- `processBodyForCacheKey` (src/index.ts:589-662). A failing stream read
raises, which the model surfaces as `Except.error`. The source's leading
`if (!body) return { chunks: [] }` covers `null`/`undefined` (the `none`
case) and the empty string, the only falsy `BodyInit` value, which is
folded into the string case here. -/
def processBodyForCacheKey : Option BodyInit → Except String ProcessedBody
  | none => .ok ⟨[], none⟩
  | some (.bytes b) => .ok ⟨[bytesToStr b], some (.bytes b)⟩
  | some (.stream chunks fails) =>
    if fails then .error "stream read failed"
    else
      let combined := concatBytes chunks
      .ok ⟨[bytesToStr combined], some (.bytes combined)⟩
  | some (.form entries) =>
    .ok ⟨[String.intercalate "," (entries.filterMap formEntryStr)], none⟩
  | some (.urlParams entries) =>
    .ok ⟨[String.intercalate ","
        (entries.map (fun kv => kv.1 ++ "=" ++ kv.2))], none⟩
  | some (.blob text mediaType) => .ok ⟨[text], some (.blob text mediaType)⟩
  | some (.str s) => if s = "" then .ok ⟨[], none⟩ else .ok ⟨[s], none⟩
  | some (.other json) => .ok ⟨[json], none⟩

/-! ### Requests and `generateCacheKey` -/

/-- The `RequestInit` fields consulted by the source: explicit options plus
the transport options serialised into the cache key. -/
structure RequestInit where
  method : Option String := none
  headers : List (String × String) := []
  body : Option BodyInit := none
  mode : Option String := none
  redirect : Option String := none
  credentials : Option String := none
  referrer : Option String := none
  referrerPolicy : Option String := none
  integrity : Option String := none
  cacheMode : Option String := none
deriving DecidableEq, Repr

/-- Method normalisation performed by `new Request(url, init)`: known
methods are byte-uppercased. -/
def normalizeMethod (m : String) : String :=
  if strUpper m = "DELETE" ∨ strUpper m = "GET" ∨ strUpper m = "HEAD" ∨
      strUpper m = "OPTIONS" ∨ strUpper m = "POST" ∨ strUpper m = "PUT" then
    strUpper m
  else m

/-- `request.method` for `new Request(url, init)`. -/
def reqMethod (init : RequestInit) : String :=
  normalizeMethod (init.method.getD "GET")

/-- The transport-option fields read off the constructed `Request` (with the
constructor's defaults) and passed through `x || ''` — the identity on these
always-defined strings. -/
def reqMode (init : RequestInit) : String := init.mode.getD "cors"

def reqRedirect (init : RequestInit) : String := init.redirect.getD "follow"

def reqCredentials (init : RequestInit) : String :=
  init.credentials.getD "same-origin"

def reqReferrer (init : RequestInit) : String :=
  init.referrer.getD "about:client"

def reqReferrerPolicy (init : RequestInit) : String :=
  init.referrerPolicy.getD ""

def reqIntegrity (init : RequestInit) : String := init.integrity.getD ""

def reqCacheMode (init : RequestInit) : String := init.cacheMode.getD "default"

/-- `JSON.stringify(keyComponents)` for the exact component tuple built by
`generateCacheKey` (src/index.ts:743-760), as a character list. -/
def cacheKeyMaterialL (url : String) (init : RequestInit)
    (fetchCacheKeyPfx : Option String) (bodyChunks : List String) :
    List Char :=
  '[' ::
    (jsonCommaJoin
      [jsonStrL "v3",
       jsonStrL (fetchCacheKeyPfx.getD ""),
       jsonStrL url,
       jsonStrL (reqMethod init),
       jsonObjL (processHeadersForCacheKey init.headers),
       jsonStrL (reqMode init),
       jsonStrL (reqRedirect init),
       jsonStrL (reqCredentials init),
       jsonStrL (reqReferrer init),
       jsonStrL (reqReferrerPolicy init),
       jsonStrL (reqIntegrity init),
       jsonStrL (reqCacheMode init),
       jsonStrArrL bodyChunks] ++ [']'])

/-- The serialised key material hashed by `generateCacheKey`. -/
def cacheKeyMaterial (url : String) (init : RequestInit)
    (fetchCacheKeyPfx : Option String) (bodyChunks : List String) : String :=
  String.mk (cacheKeyMaterialL url init fetchCacheKeyPfx bodyChunks)

/-- `generateCacheKey` (src/index.ts:726-762) when called with
pre-processed body chunks, as `cachedFetch` does. -/
def generateCacheKeyWithChunks (url : String) (init : RequestInit)
    (fetchCacheKeyPfx : Option String) (bodyChunks : List String) : String :=
  sha256 (cacheKeyMaterial url init fetchCacheKeyPfx bodyChunks)

/-- `generateCacheKey` (src/index.ts:726-762) processing the body itself
(no pre-processed chunks supplied). -/
def generateCacheKey (url : String) (init : RequestInit)
    (fetchCacheKeyPfx : Option String) : Except String String :=
  (processBodyForCacheKey init.body).map fun pb =>
    generateCacheKeyWithChunks url init fetchCacheKeyPfx pb.chunks

/-! ### Responses, headers and the cache entry codec -/

/-- Case-insensitive header lookup (`Headers.get`), `none` for absent. -/
def hGet (headers : List (String × String)) (name : String) : Option String :=
  (headers.find? (fun kv => strLower kv.1 = strLower name)).map (fun kv => kv.2)

/-- `new Headers(init)`: names lower-cased, insertion order kept, later
values for the same name replacing earlier ones in place. -/
def mkHeaders (l : List (String × String)) : List (String × String) :=
  l.foldl (fun acc kv => objSet acc (strLower kv.1) kv.2) []

/-- `Headers.set`: lower-cases the name, replaces in place or appends. -/
def hSet (headers : List (String × String)) (name value : String) :
    List (String × String) :=
  objSet headers (strLower name) value

/-- `Headers.delete`. -/
def hDelete (headers : List (String × String)) (name : String) :
    List (String × String) :=
  headers.filter (fun kv => strLower kv.1 ≠ strLower name)

/-- An HTTP response as held by the platform `Response` object: status,
status text, headers and body bytes. -/
structure Response where
  status : Nat := 200
  statusText : String := ""
  headers : List (String × String) := []
  body : List Nat := []
deriving DecidableEq, Repr

/-- `response.ok`: status in the 2xx range. -/
def responseOk (r : Response) : Bool :=
  200 ≤ r.status && r.status ≤ 299

/-- The text-vs-binary content-type heuristic of `responseToCache`
(src/index.ts:798): the case-insensitive prefix test
`/^(text\x2f|application\x2f(json|javascript|xml|x-www-form-urlencoded)|image\x2fsvg\x2bxml)/i`. -/
def strStartsWith (s p : String) : Bool :=
  p.data.isPrefixOf s.data

def shouldTreatAsText (contentType : String) : Bool :=
  let ct := strLower contentType
  strStartsWith ct "text/" || strStartsWith ct "application/json" ||
    strStartsWith ct "application/javascript" ||
    strStartsWith ct "application/xml" ||
    strStartsWith ct "application/x-www-form-urlencoded" ||
    strStartsWith ct "image/svg+xml"

/-- The persisted cache entry (`CacheEntry` in src/types.ts, fields as
written by `responseToCache`). -/
structure CacheEntry where
  data : String
  headers : List (String × String)
  status : Nat
  statusText : String
  timestamp : Int
  revalidateAfter : Option Int := none
  expiresAt : Option Int := none
  tags : Option (List String) := none
  isBinary : Bool := false
  contentType : Option String := none
deriving DecidableEq, Repr

/-- The caller-facing `cache` option (`'auto no cache'` is the default). -/
inductive CacheOption where
  | autoNoCache
  | noStore
  | forceCache
deriving DecidableEq, Repr

/-- The `next.revalidate` option: unset, `false`, or a number. -/
inductive Revalidate where
  | unset
  | rfalse
  | num (n : Int)
deriving DecidableEq, Repr

/-- The `next` options block of `CachedFetchOptions`. -/
structure NextOptions where
  revalidate : Revalidate := .unset
  expires : Option Int := none
  tags : Option (List String) := none
  fetchCacheKeyPfx : Option String := none
deriving DecidableEq, Repr

/-- `CachedFetchOptions` (src/types.ts): `RequestInit` fields plus the
custom `cache` and `next` options. -/
structure CachedFetchOptions where
  method : Option String := none
  headers : List (String × String) := []
  body : Option BodyInit := none
  mode : Option String := none
  redirect : Option String := none
  credentials : Option String := none
  referrer : Option String := none
  referrerPolicy : Option String := none
  integrity : Option String := none
  cache : Option CacheOption := none
  next : Option NextOptions := none
deriving DecidableEq, Repr

def optRevalidate (options : Option CachedFetchOptions) : Revalidate :=
  match options with
  | some o => match o.next with
    | some n => n.revalidate
    | none => .unset
  | none => .unset

def optExpires (options : Option CachedFetchOptions) : Option Int :=
  match options with
  | some o => match o.next with
    | some n => n.expires
    | none => none
  | none => none

def optTags (options : Option CachedFetchOptions) : Option (List String) :=
  match options with
  | some o => match o.next with
    | some n => n.tags
    | none => none
  | none => none

def optKeyPfx (options : Option CachedFetchOptions) : Option String :=
  match options with
  | some o => match o.next with
    | some n => n.fetchCacheKeyPfx
    | none => none
  | none => none

/-- `cleanFetchOptions` (src/index.ts:887-903): strip the custom `cache` /
`next` options, mapping `no-store` / `force-cache` onto the standard
`RequestCache` field and omitting `'auto no cache'`. -/
def cleanFetchOptions : Option CachedFetchOptions → Option RequestInit
  | none => none
  | some o =>
    some { method := o.method, headers := o.headers, body := o.body,
           mode := o.mode, redirect := o.redirect,
           credentials := o.credentials, referrer := o.referrer,
           referrerPolicy := o.referrerPolicy, integrity := o.integrity,
           cacheMode := match o.cache with
             | some .noStore => some "no-store"
             | some .forceCache => some "force-cache"
             | _ => none }

/-- `responseToCache` (src/index.ts:791-846): serialise a response into a
cache entry, lower-casing header names, storing text bodies as text and
other bodies as base64 with the `isBinary` flag, and computing the
freshness timestamps from `next.revalidate` / `next.expires` at `now`
(milliseconds, as `Date.now()`). -/
def responseToCache (response : Response)
    (options : Option CachedFetchOptions) (now : Int) : CacheEntry :=
  let headers := response.headers.foldl
    (fun acc kv => objSet acc (strLower kv.1) kv.2) []
  let contentType := (hGet response.headers "content-type").getD ""
  let shouldText := shouldTreatAsText contentType
  let data := if shouldText then bytesToStr response.body
    else toBase64 response.body
  let isBinary := !shouldText
  let revalidate := optRevalidate options
  let expires := optExpires options
  let ra : Option Int × Option Int :=
    match revalidate with
    | .rfalse => (none, some (now + 365 * 24 * 60 * 60 * 1000))
    | .num n =>
      if n > 0 then
        (some (now + n * 1000),
         some (match expires with
           | some e =>
             if e ≠ 0 ∧ e > n then now + e * 1000
             else now + max 86400 (n * 10) * 1000
           | none => now + max 86400 (n * 10) * 1000))
      else (none, none)
    | .unset => (none, none)
  { data := data, headers := headers, status := response.status,
    statusText := response.statusText, timestamp := now,
    revalidateAfter := ra.1, expiresAt := ra.2, tags := optTags options,
    isBinary := isBinary,
    contentType := if contentType = "" then none else some contentType }

/-- `isCacheEntryExpired` (src/index.ts:767-774): false when `expiresAt` is
falsy (absent or `0`), else `now > expiresAt`. -/
def isCacheEntryExpired (entry : CacheEntry) (now : Int) : Bool :=
  if jsFalsyInt entry.expiresAt then false
  else now > entry.expiresAt.getD 0

/-- `needsRevalidation` (src/index.ts:779-786): false when
`revalidateAfter` is falsy, else `now > revalidateAfter`. -/
def needsRevalidation (entry : CacheEntry) (now : Int) : Bool :=
  if jsFalsyInt entry.revalidateAfter then false
  else now > entry.revalidateAfter.getD 0

/-- `computeTTL` (src/index.ts:935-939): 86400 when no expiry, else the
floored seconds until expiry with a floor of 60. -/
def computeTTL (expiresAt : Option Int) (now : Int) : Int :=
  if jsFalsyInt expiresAt then 86400
  else max 60 (Int.fdiv (expiresAt.getD 0 - now) 1000)

/-- `cacheToResponse` (src/index.ts:851-882): rebuild a response from a
cache entry, dropping `content-length`, restoring the stored content type
when the header set lacks one, attaching the cache observability headers,
and decoding base64 for binary entries. -/
def cacheToResponse (entry : CacheEntry) (cacheStatus : String) (now : Int) :
    Response :=
  let headers := mkHeaders entry.headers
  let headers := hDelete headers "content-length"
  let headers :=
    if !jsFalsyStr entry.contentType ∧ jsFalsyStr (hGet headers "content-type")
    then hSet headers "content-type" (entry.contentType.getD "")
    else headers
  let cacheAge := Int.fdiv (now - entry.timestamp) 1000
  let headers := hSet headers "X-Cache-Status" cacheStatus
  let headers := hSet headers "X-Cache-Age" (toString cacheAge)
  let headers :=
    if jsFalsyInt entry.expiresAt then headers
    else hSet headers "X-Cache-Expires-In"
      (toString (max 0 (Int.fdiv (entry.expiresAt.getD 0 - now) 1000)))
  let body := if entry.isBinary then fromBase64 entry.data
    else strToBytes entry.data
  { status := entry.status, statusText := entry.statusText,
    headers := headers, body := body }

/-! ### The orchestrator `cachedFetch` (src/index.ts:945-1079)

The orchestrator is embedded as a pure function of the request plus an
environment fixing what the external collaborators would return: the
origin `fetch` results (first call, the catch-handler fallback call, the
background-refresh call), the store `get` result, and the two `Date.now()`
readings. The result records the returned response, every store write
dispatched (`cache.set` is fire-and-forget, so writes are recorded whether
or not the store accepts them), and whether a background refresh was
scheduled. A thrown JS exception is `Except.error`. -/

structure FetchEnv where
  originFirst : Except String Response
  originFallback : Except String Response
  originBg : Except String Response
  storeGet : Except String (Option CacheEntry)
  now : Int
  nowBg : Int

/-- One `cache.set(key, entry, { ttl })` call. -/
structure StoreWrite where
  key : String
  entry : CacheEntry
  ttl : Int
deriving DecidableEq, Repr

structure FetchResult where
  resp : Response
  writes : List StoreWrite
  bgScheduled : Bool
  storeQueried : Bool
  usedOrigin : Bool
deriving DecidableEq, Repr

/-- Wrap an origin response with `X-Cache-Status: MISS` and
`X-Cache-Age: 0`, as each MISS path does. -/
def addMissHeaders (r : Response) : Response :=
  let headers := mkHeaders r.headers
  let headers := hSet headers "X-Cache-Status" "MISS"
  let headers := hSet headers "X-Cache-Age" "0"
  { r with headers := headers }

/-- The methods the orchestrator stores responses for. -/
def isCacheableMethod (m : String) : Bool :=
  m = "GET" || m = "POST" || m = "PUT"

/-- The detached background refresh closure (src/index.ts:1003-1015): fetch
the origin again; on a 2xx response to a cacheable method re-encode and
overwrite the entry with a freshly computed TTL; swallow any failure. -/
def backgroundRefresh (cacheKey : String) (init : Option CachedFetchOptions)
    (method : String) (env : FetchEnv) : List StoreWrite :=
  match env.originBg with
  | .error _ => []
  | .ok freshResponse =>
    if responseOk freshResponse && isCacheableMethod method then
      let freshCacheEntry := responseToCache freshResponse init env.nowBg
      let cacheTTL := computeTTL freshCacheEntry.expiresAt env.nowBg
      [⟨cacheKey, freshCacheEntry, cacheTTL⟩]
    else []

/-- `init?.cache || 'auto no cache'` (src/index.ts:955). -/
def cacheOptionOf (init : Option CachedFetchOptions) : CacheOption :=
  match init with
  | some o => o.cache.getD .autoNoCache
  | none => .autoNoCache

/-- `init?.body`, the body handed to `processBodyForCacheKey`. -/
def bodyOf (init : Option CachedFetchOptions) : Option BodyInit :=
  match init with
  | some o => o.body
  | none => none

/-- `(cleanOptions.method ? String(cleanOptions.method) : 'GET').toUpperCase()`
(src/index.ts:951): the empty string is falsy. -/
def methodOf (init : Option CachedFetchOptions) : String :=
  match ((cleanFetchOptions init).getD {}).method with
  | some m => if m = "" then "GET" else strUpper m
  | none => "GET"

/-- The `cleanOptions` value at the `generateCacheKey` call site: method
uppercased (src/index.ts:952) and any replayable body substituted back
(src/index.ts:979-981). -/
def cleanOptionsOf (init : Option CachedFetchOptions) (pb : ProcessedBody) :
    RequestInit :=
  let c := (cleanFetchOptions init).getD {}
  let c := { c with method := some (methodOf init) }
  match pb.ogBody with
  | some og => { c with body := some og }
  | none => c

/-- The cache key `cachedFetch` derives (src/index.ts:978-982). -/
def cacheKeyOf (url : String) (init : Option CachedFetchOptions)
    (pb : ProcessedBody) : String :=
  generateCacheKeyWithChunks url (cleanOptionsOf init pb) (optKeyPfx init)
    pb.chunks

/-- The miss/expired path (src/index.ts:1031-1059): fetch the origin, tag
the returned response MISS, and (fire-and-forget) store it when it is 2xx
and the method is cacheable. -/
def missPath (cacheKey : String) (init : Option CachedFetchOptions)
    (method : String) (env : FetchEnv) : Except String FetchResult :=
  match env.originFirst with
  | .error e => .error e
  | .ok response =>
    let writes :=
      if responseOk response && isCacheableMethod method then
        let cacheEntry := responseToCache response init env.now
        let cacheTTL := computeTTL cacheEntry.expiresAt env.now
        [⟨cacheKey, cacheEntry, cacheTTL⟩]
      else []
    .ok { resp := addMissHeaders response, writes := writes,
          bgScheduled := false, storeQueried := true, usedOrigin := true }

/-- Handling of a store hit (src/index.ts:992-1028): a non-expired entry is
decoded and returned as HIT, or as STALE with a background refresh
scheduled; an expired entry falls through to the miss path. The structural
checks `typeof cachedEntry.status === 'number'`,
`cachedEntry.data !== undefined` and `cachedEntry.headers` hold for every
value of the typed `CacheEntry` model. -/
def servePath (cacheKey : String) (init : Option CachedFetchOptions)
    (method : String) (env : FetchEnv) (cachedEntry : CacheEntry) :
    Except String FetchResult :=
  if !isCacheEntryExpired cachedEntry env.now then
    let isStale := needsRevalidation cachedEntry env.now
    let bgWrites :=
      if isStale then backgroundRefresh cacheKey init method env else []
    .ok { resp := cacheToResponse cachedEntry
            (if isStale then "STALE" else "HIT") env.now,
          writes := bgWrites, bgScheduled := isStale, storeQueried := true,
          usedOrigin := false }
  else missPath cacheKey init method env

/-- The body of the `try` block (src/index.ts:987-1059). -/
def tryPath (cacheKey : String) (init : Option CachedFetchOptions)
    (method : String) (cacheOption : CacheOption) (env : FetchEnv) :
    Except String FetchResult :=
  match (if cacheOption = .forceCache ∨ cacheOption = .autoNoCache
    then env.storeGet else .ok none) with
  | .error e => .error e
  | .ok (some cachedEntry) => servePath cacheKey init method env cachedEntry
  | .ok none => missPath cacheKey init method env

/-- The `catch` handler (src/index.ts:1060-1078): fall back to a direct
fetch tagged MISS. -/
def fallbackPath (env : FetchEnv) : Except String FetchResult :=
  match env.originFallback with
  | .error e => .error e
  | .ok fallbackResponse =>
    .ok { resp := addMissHeaders fallbackResponse, writes := [],
          bgScheduled := false, storeQueried := true, usedOrigin := true }

/-- `cachedFetch` (src/index.ts:945-1079). Body normalisation and key
derivation (and the `getCache()` call) happen before the `try` block, so
their failures propagate; everything from the store `get` onward is inside
the `try`, whose `catch` falls back to a direct fetch tagged MISS. -/
def cachedFetch (url : String) (init : Option CachedFetchOptions)
    (env : FetchEnv) : Except String FetchResult :=
  if cacheOptionOf init = .noStore ∨ optRevalidate init = .num 0 then
    match env.originFirst with
    | .error e => .error e
    | .ok response =>
      .ok { resp := addMissHeaders response, writes := [],
            bgScheduled := false, storeQueried := false, usedOrigin := true }
  else
    match processBodyForCacheKey (bodyOf init) with
    | .error e => .error e
    | .ok pb =>
      match tryPath (cacheKeyOf url init pb) init (methodOf init)
        (cacheOptionOf init) env with
      | .ok r => .ok r
      | .error _ => fallbackPath env

/-! ### Claim theorems -/

theorem cacheKeyMaterialL_headers (url : String) (init : RequestInit)
    (pfx : Option String) (chunks : List String)
    (h1 h2 : List (String × String))
    (hh : removeTraceHeaders h1 = removeTraceHeaders h2) :
    cacheKeyMaterialL url { init with headers := h1 } pfx chunks
      = cacheKeyMaterialL url { init with headers := h2 } pfx chunks := by
  have hph : processHeadersForCacheKey h1 = processHeadersForCacheKey h2 :=
    processHeaders_eq_of_removeTrace_eq hh
  simp only [cacheKeyMaterialL, reqMethod, reqMode, reqRedirect,
    reqCredentials, reqReferrer, reqReferrerPolicy, reqIntegrity,
    reqCacheMode]
  rw [hph]

/-- C1: two requests with identical URL, method, transport options and body,
whose header lists agree after removing every header whose name
case-insensitively equals `traceparent` or `tracestate`, derive the same
cache key. In particular two runs differing only in the values of those
trace headers get the same key, and the key is a pure function of these
inputs (no randomness). -/
theorem generateCacheKey_ignores_trace_headers (url : String)
    (init : RequestInit) (pfx : Option String)
    (h1 h2 : List (String × String))
    (hh : removeTraceHeaders h1 = removeTraceHeaders h2) :
    generateCacheKey url { init with headers := h1 } pfx
      = generateCacheKey url { init with headers := h2 } pfx := by
  unfold generateCacheKey
  dsimp only
  cases hpb : processBodyForCacheKey init.body with
  | error e => rfl
  | ok pb =>
    simp only [Except.map]
    unfold generateCacheKeyWithChunks cacheKeyMaterial
    rw [cacheKeyMaterialL_headers url init pfx pb.chunks h1 h2 hh]

/-- Witness for C1: concrete header lists differing only in
`traceparent` / `tracestate` values hash to the same key. -/
theorem generateCacheKey_ignores_trace_headers_witness :
    removeTraceHeaders
        [("Accept", "application/json"), ("TraceParent", "00-aaa-01")]
      = removeTraceHeaders
        [("Accept", "application/json"), ("traceparent", "00-bbb-02"),
          ("tracestate", "vendor=x")]
    ∧ generateCacheKey "https://api.example.com/products"
        { ({} : RequestInit) with headers :=
            [("Accept", "application/json"), ("TraceParent", "00-aaa-01")] }
        none
      = generateCacheKey "https://api.example.com/products"
        { ({} : RequestInit) with headers :=
            [("Accept", "application/json"), ("traceparent", "00-bbb-02"),
              ("tracestate", "vendor=x")] }
        none :=
  ⟨by decide,
   generateCacheKey_ignores_trace_headers "https://api.example.com/products"
     {} none _ _ (by decide)⟩
/-- C3: at encode time, `revalidate = N > 0` yields
`revalidateAfter = now + N` seconds and
`expiresAt = now + expires` seconds when `expires` is provided and greater
than `N`, otherwise `now + max 86400 (10 * N)` seconds; `revalidate = false`
yields no `revalidateAfter` and `expiresAt = now + 365` days. (Times are in
milliseconds, hence the `* 1000` factors.) -/
theorem responseToCache_freshness_policy
    (resp : Response) (opts : Option CachedFetchOptions) (now : Int) :
    (∀ n : Int, optRevalidate opts = .num n → 0 < n →
      (responseToCache resp opts now).revalidateAfter
          = some (now + n * 1000)
        ∧ (responseToCache resp opts now).expiresAt
          = some (match optExpires opts with
            | some e =>
              if n < e then now + e * 1000
              else now + max 86400 (n * 10) * 1000
            | none => now + max 86400 (n * 10) * 1000))
    ∧ (optRevalidate opts = .rfalse →
      (responseToCache resp opts now).revalidateAfter = none
        ∧ (responseToCache resp opts now).expiresAt
          = some (now + 365 * 24 * 60 * 60 * 1000)) := by
  constructor
  · intro n hrev hn
    unfold responseToCache
    simp only [hrev, if_pos hn]
    cases hexp : optExpires opts with
    | none => exact ⟨trivial, rfl⟩
    | some e =>
      refine ⟨trivial, ?_⟩
      dsimp only
      by_cases he : n < e
      · rw [if_pos he, if_pos (by constructor <;> omega)]
      · rw [if_neg he, if_neg (by intro hc; omega)]
  · intro hrev
    unfold responseToCache
    simp only [hrev]
    exact ⟨trivial, trivial⟩

/-- Witness for C3: `revalidate = 60` with no `expires`, at a concrete
`now`, gives `revalidateAfter = now + 60 s` and
`expiresAt = now + 86400 s`; `revalidate = false` gives no
`revalidateAfter` and a 365-day expiry. -/
theorem responseToCache_freshness_policy_witness :
    optRevalidate (some { next := some { revalidate := .num 60 } })
        = .num 60
    ∧ (0 : Int) < 60
    ∧ (responseToCache {} (some { next := some { revalidate := .num 60 } })
          1700000000000).revalidateAfter = some (1700000000000 + 60 * 1000)
    ∧ (responseToCache {} (some { next := some { revalidate := .num 60 } })
          1700000000000).expiresAt = some (1700000000000 + 86400 * 1000)
    ∧ optRevalidate (some { next := some { revalidate := .rfalse } })
        = .rfalse
    ∧ (responseToCache {} (some { next := some { revalidate := .rfalse } })
          1700000000000).revalidateAfter = none
    ∧ (responseToCache {} (some { next := some { revalidate := .rfalse } })
          1700000000000).expiresAt
        = some (1700000000000 + 365 * 24 * 60 * 60 * 1000) := by
  have h1 := (responseToCache_freshness_policy {}
    (some { next := some { revalidate := .num 60 } }) 1700000000000).1
    60 rfl (by decide)
  have h2 := (responseToCache_freshness_policy {}
    (some { next := some { revalidate := .rfalse } }) 1700000000000).2 rfl
  refine ⟨rfl, by decide, h1.1, ?_, rfl, h2.1, h2.2⟩
  rw [h1.2]
  decide


/-! ### Path lemmas for `cachedFetch` -/

theorem missPath_ok (cacheKey : String) (init : Option CachedFetchOptions)
    (method : String) (env : FetchEnv) (response : Response)
    (ho : env.originFirst = .ok response) :
    missPath cacheKey init method env
      = .ok { resp := addMissHeaders response,
              writes :=
                if responseOk response && isCacheableMethod method then
                  [⟨cacheKey, responseToCache response init env.now,
                    computeTTL (responseToCache response init env.now).expiresAt
                      env.now⟩]
                else [],
              bgScheduled := false, storeQueried := true,
              usedOrigin := true } := by
  unfold missPath
  rw [ho]

theorem cachedFetch_not_bypass (url : String)
    (init : Option CachedFetchOptions) (env : FetchEnv) (pb : ProcessedBody)
    (hns : cacheOptionOf init ≠ .noStore)
    (h0 : optRevalidate init ≠ .num 0)
    (hpb : processBodyForCacheKey (bodyOf init) = .ok pb) :
    cachedFetch url init env
      = match tryPath (cacheKeyOf url init pb) init (methodOf init)
          (cacheOptionOf init) env with
        | .ok r => .ok r
        | .error _ => fallbackPath env := by
  unfold cachedFetch
  rw [if_neg (by rintro (h | h) <;> [exact hns h; exact h0 h]), hpb]

theorem tryPath_get (cacheKey : String) (init : Option CachedFetchOptions)
    (method : String) (cacheOption : CacheOption) (env : FetchEnv)
    (hns : cacheOption ≠ .noStore) :
    tryPath cacheKey init method cacheOption env
      = match env.storeGet with
        | .error e => .error e
        | .ok (some cachedEntry) =>
            servePath cacheKey init method env cachedEntry
        | .ok none => missPath cacheKey init method env := by
  unfold tryPath
  rw [if_pos (by cases cacheOption <;> simp_all)]

theorem servePath_live (cacheKey : String) (init : Option CachedFetchOptions)
    (method : String) (env : FetchEnv) (entry : CacheEntry)
    (hexp : isCacheEntryExpired entry env.now = false) :
    servePath cacheKey init method env entry
      = .ok { resp := cacheToResponse entry
                (if needsRevalidation entry env.now then "STALE" else "HIT")
                env.now,
              writes :=
                if needsRevalidation entry env.now then
                  backgroundRefresh cacheKey init method env
                else [],
              bgScheduled := needsRevalidation entry env.now,
              storeQueried := true, usedOrigin := false } := by
  unfold servePath
  rw [hexp]
  simp

theorem servePath_expired (cacheKey : String)
    (init : Option CachedFetchOptions) (method : String) (env : FetchEnv)
    (entry : CacheEntry) (hexp : isCacheEntryExpired entry env.now = true) :
    servePath cacheKey init method env entry
      = missPath cacheKey init method env := by
  unfold servePath
  rw [hexp]
  simp

/-- A store hit with a non-expired entry is served from the cache. -/
theorem cachedFetch_serve (url : String) (init : Option CachedFetchOptions)
    (env : FetchEnv) (entry : CacheEntry) (pb : ProcessedBody)
    (hns : cacheOptionOf init ≠ .noStore)
    (h0 : optRevalidate init ≠ .num 0)
    (hpb : processBodyForCacheKey (bodyOf init) = .ok pb)
    (hget : env.storeGet = .ok (some entry))
    (hexp : isCacheEntryExpired entry env.now = false) :
    cachedFetch url init env
      = .ok { resp := cacheToResponse entry
                (if needsRevalidation entry env.now then "STALE" else "HIT")
                env.now,
              writes :=
                if needsRevalidation entry env.now then
                  backgroundRefresh (cacheKeyOf url init pb) init
                    (methodOf init) env
                else [],
              bgScheduled := needsRevalidation entry env.now,
              storeQueried := true, usedOrigin := false } := by
  rw [cachedFetch_not_bypass url init env pb hns h0 hpb,
    tryPath_get _ _ _ _ _ hns, hget]
  simp only [servePath_live _ _ _ _ _ hexp]

/-- A store miss goes to the miss path. -/
theorem cachedFetch_missNone (url : String)
    (init : Option CachedFetchOptions) (env : FetchEnv) (pb : ProcessedBody)
    (hns : cacheOptionOf init ≠ .noStore)
    (h0 : optRevalidate init ≠ .num 0)
    (hpb : processBodyForCacheKey (bodyOf init) = .ok pb)
    (hget : env.storeGet = .ok none)
    (response : Response) (ho : env.originFirst = .ok response) :
    cachedFetch url init env
      = .ok { resp := addMissHeaders response,
              writes :=
                if responseOk response && isCacheableMethod (methodOf init)
                then
                  [⟨cacheKeyOf url init pb,
                    responseToCache response init env.now,
                    computeTTL (responseToCache response init env.now).expiresAt
                      env.now⟩]
                else [],
              bgScheduled := false, storeQueried := true,
              usedOrigin := true } := by
  rw [cachedFetch_not_bypass url init env pb hns h0 hpb,
    tryPath_get _ _ _ _ _ hns, hget]
  simp only [missPath_ok _ _ _ _ _ ho]

/-- An expired stored entry produces exactly the same outcome as an absent
one: the whole `cachedFetch` results coincide. -/
theorem cachedFetch_expired_eq_absent (url : String)
    (init : Option CachedFetchOptions) (env : FetchEnv) (pb : ProcessedBody)
    (entry : CacheEntry)
    (hns : cacheOptionOf init ≠ .noStore)
    (h0 : optRevalidate init ≠ .num 0)
    (hpb : processBodyForCacheKey (bodyOf init) = .ok pb)
    (hexp : isCacheEntryExpired entry env.now = true) :
    cachedFetch url init { env with storeGet := .ok (some entry) }
      = cachedFetch url init { env with storeGet := .ok none } := by
  rw [cachedFetch_not_bypass url init _ pb hns h0 hpb,
    cachedFetch_not_bypass url init _ pb hns h0 hpb,
    tryPath_get _ _ _ _ _ hns, tryPath_get _ _ _ _ _ hns]
  simp only [servePath_expired _ _ _
    { env with storeGet := .ok (some entry) } _ hexp]
  rfl

/-- A failing store read lands in the catch handler. -/
theorem cachedFetch_storeGet_error (url : String)
    (init : Option CachedFetchOptions) (env : FetchEnv) (pb : ProcessedBody)
    (e : String)
    (hns : cacheOptionOf init ≠ .noStore)
    (h0 : optRevalidate init ≠ .num 0)
    (hpb : processBodyForCacheKey (bodyOf init) = .ok pb)
    (hget : env.storeGet = .error e) :
    cachedFetch url init env = fallbackPath env := by
  rw [cachedFetch_not_bypass url init env pb hns h0 hpb,
    tryPath_get _ _ _ _ _ hns, hget]

theorem responseToCache_unset_fields (resp : Response)
    (init : Option CachedFetchOptions) (t : Int)
    (hrev : optRevalidate init = .unset
      ∨ ∃ n : Int, n < 0 ∧ optRevalidate init = .num n) :
    (responseToCache resp init t).revalidateAfter = none
      ∧ (responseToCache resp init t).expiresAt = none := by
  unfold responseToCache
  rcases hrev with h | ⟨n, hn, h⟩
  · simp only [h]
    exact ⟨trivial, trivial⟩
  · simp only [h, if_neg (by omega : ¬n > 0)]
    exact ⟨trivial, trivial⟩

/-- C10: when `next.revalidate` is neither `false`, `0`, nor positive, a
2xx response to a cacheable method is still stored, with neither
`revalidateAfter` nor `expiresAt`, so every later read classifies it as
never expired and never needing revalidation (FRESH), the store TTL used
for it is the 86400-second default, and a subsequent read serves it as a
HIT. -/
theorem unset_revalidate_entry (resp : Response)
    (init : Option CachedFetchOptions) (now : Int)
    (hrev : optRevalidate init = .unset
      ∨ ∃ n : Int, n < 0 ∧ optRevalidate init = .num n) :
    (responseToCache resp init now).revalidateAfter = none
    ∧ (responseToCache resp init now).expiresAt = none
    ∧ (∀ t : Int,
        isCacheEntryExpired (responseToCache resp init now) t = false
        ∧ needsRevalidation (responseToCache resp init now) t = false)
    ∧ (∀ t : Int,
        computeTTL (responseToCache resp init now).expiresAt t = 86400)
    ∧ (∀ (url : String) (env : FetchEnv) (pb : ProcessedBody),
        cacheOptionOf init ≠ .noStore →
        processBodyForCacheKey (bodyOf init) = .ok pb →
        env.storeGet = .ok none →
        env.originFirst = .ok resp →
        responseOk resp = true →
        isCacheableMethod (methodOf init) = true →
        cachedFetch url init env
          = .ok { resp := addMissHeaders resp,
                  writes := [⟨cacheKeyOf url init pb,
                    responseToCache resp init env.now, 86400⟩],
                  bgScheduled := false, storeQueried := true,
                  usedOrigin := true })
    ∧ (∀ (url : String) (env : FetchEnv) (pb : ProcessedBody),
        cacheOptionOf init ≠ .noStore →
        processBodyForCacheKey (bodyOf init) = .ok pb →
        env.storeGet = .ok (some (responseToCache resp init now)) →
        cachedFetch url init env
          = .ok { resp := cacheToResponse (responseToCache resp init now)
                    "HIT" env.now,
                  writes := [], bgScheduled := false, storeQueried := true,
                  usedOrigin := false }) := by
  have hf := responseToCache_unset_fields resp init now hrev
  have hfresh : ∀ t : Int,
      isCacheEntryExpired (responseToCache resp init now) t = false
      ∧ needsRevalidation (responseToCache resp init now) t = false := by
    intro t
    unfold isCacheEntryExpired needsRevalidation
    rw [hf.1, hf.2]
    simp [jsFalsyInt]
  have h0 : optRevalidate init ≠ .num 0 := by
    rcases hrev with h | ⟨n, hn, h⟩ <;> rw [h] <;> intro hc
    · cases hc
    · cases hc; omega
  refine ⟨hf.1, hf.2, hfresh, ?_, ?_, ?_⟩
  · intro t
    rw [hf.2]
    rfl
  · intro url env pb hns hpb hget ho hok hmeth
    rw [cachedFetch_missNone url init env pb hns h0 hpb hget resp ho]
    have hw : (responseToCache resp init env.now).expiresAt = none :=
      (responseToCache_unset_fields resp init env.now hrev).2
    rw [hok, hmeth]
    simp only [Bool.and_self, if_pos, hw]
    rfl
  · intro url env pb hns hpb hget
    rw [cachedFetch_serve url init env _ pb hns h0 hpb hget
      ((hfresh env.now).1)]
    rw [(hfresh env.now).2]
    simp

/-- Witness for C10: a concrete GET with options carrying no `revalidate`
at all produces an entry with no timestamps, always-FRESH classification,
the default 86400 TTL, and a HIT on a later read. -/
theorem unset_revalidate_entry_witness :
    (optRevalidate (some { method := some "GET" }) = .unset
      ∨ ∃ n : Int, n < 0
          ∧ optRevalidate (some { method := some "GET" }) = .num n)
    ∧ ((responseToCache { status := 200, body := [104, 105] }
          (some { method := some "GET" }) 1700000000000).revalidateAfter
        = none
      ∧ (responseToCache { status := 200, body := [104, 105] }
          (some { method := some "GET" }) 1700000000000).expiresAt = none
      ∧ isCacheEntryExpired (responseToCache { status := 200, body := [104, 105] }
          (some { method := some "GET" }) 1700000000000) 1900000000000 = false
      ∧ needsRevalidation (responseToCache { status := 200, body := [104, 105] }
          (some { method := some "GET" }) 1700000000000) 1900000000000 = false
      ∧ computeTTL (responseToCache { status := 200, body := [104, 105] }
          (some { method := some "GET" }) 1700000000000).expiresAt
          1700000000000 = 86400) := by
  have h := unset_revalidate_entry { status := 200, body := [104, 105] }
    (some { method := some "GET" }) 1700000000000 (.inl rfl)
  exact ⟨.inl rfl, h.1, h.2.1,
    (h.2.2.1 1900000000000).1, (h.2.2.1 1900000000000).2,
    h.2.2.2.1 1700000000000⟩

/-- The three-way read-time state, as `cachedFetch` derives it from
`isCacheEntryExpired` (checked first) and `needsRevalidation`. -/
inductive CacheState where
  | fresh
  | stale
  | expired
deriving DecidableEq, Repr

def classifyEntry (entry : CacheEntry) (now : Int) : CacheState :=
  if isCacheEntryExpired entry now then .expired
  else if needsRevalidation entry now then .stale
  else .fresh

/-- C4: read-time classification is EXPIRED when `now > expiresAt`, else
STALE when `revalidateAfter` is set and `now > revalidateAfter`, else
FRESH; an entry with neither timestamp is always FRESH; and an EXPIRED
entry is handled identically to an absent one, with a full origin fetch
and a re-store of the fresh 2xx response. (The positivity hypotheses rule
out the degenerate timestamp `0`, which JS truthiness treats as unset.) -/
theorem read_time_classification (entry : CacheEntry) (now : Int)
    (hpos1 : ∀ t, entry.expiresAt = some t → 0 < t)
    (hpos2 : ∀ t, entry.revalidateAfter = some t → 0 < t) :
    (classifyEntry entry now =
      match entry.expiresAt, entry.revalidateAfter with
      | some ex, some ra =>
        if now > ex then .expired else if now > ra then .stale else .fresh
      | some ex, none => if now > ex then .expired else .fresh
      | none, some ra => if now > ra then .stale else .fresh
      | none, none => .fresh)
    ∧ (entry.expiresAt = none ∧ entry.revalidateAfter = none →
        classifyEntry entry now = .fresh)
    ∧ (∀ (url : String) (init : Option CachedFetchOptions) (env : FetchEnv)
        (pb : ProcessedBody),
        isCacheEntryExpired entry env.now = true →
        cacheOptionOf init ≠ .noStore →
        optRevalidate init ≠ .num 0 →
        processBodyForCacheKey (bodyOf init) = .ok pb →
        cachedFetch url init { env with storeGet := .ok (some entry) }
          = cachedFetch url init { env with storeGet := .ok none })
    ∧ (∀ (url : String) (init : Option CachedFetchOptions) (env : FetchEnv)
        (pb : ProcessedBody) (resp2 : Response),
        isCacheEntryExpired entry env.now = true →
        cacheOptionOf init ≠ .noStore →
        optRevalidate init ≠ .num 0 →
        processBodyForCacheKey (bodyOf init) = .ok pb →
        env.storeGet = .ok (some entry) →
        env.originFirst = .ok resp2 →
        responseOk resp2 = true →
        isCacheableMethod (methodOf init) = true →
        cachedFetch url init env
          = .ok { resp := addMissHeaders resp2,
                  writes := [⟨cacheKeyOf url init pb,
                    responseToCache resp2 init env.now,
                    computeTTL (responseToCache resp2 init env.now).expiresAt
                      env.now⟩],
                  bgScheduled := false, storeQueried := true,
                  usedOrigin := true }) := by
  refine ⟨?_, ?_, ?_, ?_⟩
  · cases hex : entry.expiresAt with
    | none =>
      cases hra : entry.revalidateAfter with
      | none =>
        simp [classifyEntry, isCacheEntryExpired, needsRevalidation,
          jsFalsyInt, hex, hra]
      | some ra =>
        have h2 := hpos2 ra hra
        simp only [classifyEntry, isCacheEntryExpired, needsRevalidation,
          jsFalsyInt, hex, hra, Option.getD]
        simp [show ¬(ra = 0) from by omega]
    | some ex =>
      have h1 := hpos1 ex hex
      cases hra : entry.revalidateAfter with
      | none =>
        simp only [classifyEntry, isCacheEntryExpired, needsRevalidation,
          jsFalsyInt, hex, hra, Option.getD]
        simp [show ¬(ex = 0) from by omega]
      | some ra =>
        have h2 := hpos2 ra hra
        simp only [classifyEntry, isCacheEntryExpired, needsRevalidation,
          jsFalsyInt, hex, hra, Option.getD]
        simp [show ¬(ex = 0) from by omega, show ¬(ra = 0) from by omega]
  · rintro ⟨hex, hra⟩
    simp [classifyEntry, isCacheEntryExpired, needsRevalidation,
      jsFalsyInt, hex, hra]
  · intro url init env pb hexp hns h0 hpb
    exact cachedFetch_expired_eq_absent url init env pb entry hns h0 hpb hexp
  · intro url init env pb resp2 hexp hns h0 hpb hget ho hok hmeth
    rw [cachedFetch_not_bypass url init env pb hns h0 hpb,
      tryPath_get _ _ _ _ _ hns, hget]
    simp only [servePath_expired _ _ _ _ _ hexp, missPath_ok _ _ _ _ _ ho]
    rw [hok, hmeth]
    simp

/-- Witness for C4: a concrete entry with `revalidateAfter = 50` and
`expiresAt = 100` read at `now = 70` classifies as STALE. -/
theorem read_time_classification_witness :
    (∀ t : Int,
      ({ data := "d", headers := [], status := 200, statusText := "",
         timestamp := 0, revalidateAfter := some 50,
         expiresAt := some 100 } : CacheEntry).expiresAt = some t → 0 < t)
    ∧ (∀ t : Int,
      ({ data := "d", headers := [], status := 200, statusText := "",
         timestamp := 0, revalidateAfter := some 50,
         expiresAt := some 100 } : CacheEntry).revalidateAfter = some t →
        0 < t)
    ∧ classifyEntry
        { data := "d", headers := [], status := 200, statusText := "",
          timestamp := 0, revalidateAfter := some 50,
          expiresAt := some 100 } 70 = .stale := by
  have hp1 : ∀ t : Int, (some 100 : Option Int) = some t → 0 < t := by
    intro t ht
    injection ht with h
    omega
  have hp2 : ∀ t : Int, (some 50 : Option Int) = some t → 0 < t := by
    intro t ht
    injection ht with h
    omega
  refine ⟨hp1, hp2, ?_⟩
  have h := (read_time_classification
    { data := "d", headers := [], status := 200, statusText := "",
      timestamp := 0, revalidateAfter := some 50, expiresAt := some 100 }
    70 hp1 hp2).1
  rw [h]
  decide
theorem responseToCache_isBinary (resp : Response)
    (opts : Option CachedFetchOptions) (now : Int) :
    (responseToCache resp opts now).isBinary
      = !shouldTreatAsText ((hGet resp.headers "content-type").getD "") := by
  simp only [responseToCache]

theorem responseToCache_data (resp : Response)
    (opts : Option CachedFetchOptions) (now : Int) :
    (responseToCache resp opts now).data
      = if shouldTreatAsText ((hGet resp.headers "content-type").getD "")
        then bytesToStr resp.body
        else toBase64 resp.body := by
  simp only [responseToCache]

theorem cacheToResponse_body (entry : CacheEntry) (st : String) (now : Int) :
    (cacheToResponse entry st now).body
      = if entry.isBinary then fromBase64 entry.data
        else strToBytes entry.data := by
  simp only [cacheToResponse]
/-- C2: decoding the encoded cache entry restores the response body, for
text content types (any body that is the UTF-8 encoding of a string) and
for binary content types (any byte body); for binary content types the
entry stores base64 with the `isBinary` flag set, and decoding is
byte-identical. -/
theorem entry_codec_roundtrip (resp : Response)
    (opts : Option CachedFetchOptions) (now now2 : Int) (st : String)
    (hbytes : ∀ b ∈ resp.body, b < 256)
    (htext :
      shouldTreatAsText ((hGet resp.headers "content-type").getD "") = true →
      ∃ s, resp.body = strToBytes s) :
    (cacheToResponse (responseToCache resp opts now) st now2).body
        = resp.body
    ∧ (shouldTreatAsText ((hGet resp.headers "content-type").getD "")
          = false →
        (responseToCache resp opts now).isBinary = true
        ∧ (responseToCache resp opts now).data = toBase64 resp.body) := by
  cases ht : shouldTreatAsText ((hGet resp.headers "content-type").getD "") with
  | true =>
    obtain ⟨s, hs⟩ := htext ht
    constructor
    · rw [cacheToResponse_body, responseToCache_isBinary, ht,
        responseToCache_data, if_pos ht]
      simp only [Bool.not_true, Bool.false_eq_true, if_false]
      rw [hs, bytesToStr_strToBytes]
    · intro hcontra
      simp at hcontra
  | false =>
    constructor
    · rw [cacheToResponse_body, responseToCache_isBinary, ht,
        responseToCache_data]
      simp only [ht, Bool.false_eq_true, if_false, Bool.not_false, if_pos]
      exact fromBase64_toBase64 resp.body hbytes
    · intro _
      constructor
      · rw [responseToCache_isBinary, ht]
        rfl
      · rw [responseToCache_data]
        simp only [ht, Bool.false_eq_true, if_false]
/-- Witness for C2: a concrete binary (`application/octet-stream`)
response with bytes `[0, 255, 7]` round-trips byte-identically and is
stored as base64 with the binary flag. -/
theorem entry_codec_roundtrip_witness :
    (∀ b ∈ [0, 255, 7], b < 256)
    ∧ ((cacheToResponse (responseToCache
          { status := 200,
            headers := [("content-type", "application/octet-stream")],
            body := [0, 255, 7] } none 1000) "HIT" 2000).body
        = [0, 255, 7]
      ∧ (shouldTreatAsText ((hGet
            ({ status := 200,
               headers := [("content-type", "application/octet-stream")],
               body := [0, 255, 7] } : Response).headers
            "content-type").getD "") = false →
          (responseToCache
            { status := 200,
              headers := [("content-type", "application/octet-stream")],
              body := [0, 255, 7] } none 1000).isBinary = true
          ∧ (responseToCache
              { status := 200,
                headers := [("content-type", "application/octet-stream")],
                body := [0, 255, 7] } none 1000).data
            = toBase64 [0, 255, 7])) :=
  ⟨by decide,
   entry_codec_roundtrip
     { status := 200,
       headers := [("content-type", "application/octet-stream")],
       body := [0, 255, 7] } none 1000 2000 "HIT" (by decide)
     (fun h => absurd h (by decide))⟩

/-! ### Header lookup lemmas -/

theorem char_toNat_ofNat_small {n : Nat} (h : n < 55296) :
    (Char.ofNat n).toNat = n := by
  unfold Char.ofNat
  rw [dif_pos (Or.inl (by omega))]
  unfold Char.ofNatAux Char.toNat
  simp [UInt32.toNat, BitVec.toNat_ofNatLt]

theorem char_toLower_idem (c : Char) : c.toLower.toLower = c.toLower := by
  unfold Char.toLower
  by_cases h : c.toNat ≥ 65 ∧ c.toNat ≤ 90
  · rw [if_pos h]
    have ht : (Char.ofNat (c.toNat + 32)).toNat = c.toNat + 32 :=
      char_toNat_ofNat_small (by omega)
    rw [ht, if_neg (by omega)]
  · rw [if_neg h, if_neg h]

theorem strLower_idem (s : String) : strLower (strLower s) = strLower s := by
  unfold strLower
  show String.mk ((s.data.map Char.toLower).map Char.toLower) = _
  rw [List.map_map]
  have hf : Char.toLower ∘ Char.toLower = Char.toLower :=
    funext char_toLower_idem
  rw [hf]

/-- All header names in the list are already lower-cased (the invariant a
JS `Headers` object maintains). -/
def keysLower (hs : List (String × String)) : Prop :=
  ∀ kv ∈ hs, strLower kv.1 = kv.1

theorem keysLower_nil : keysLower [] := by
  intro kv hkv
  cases hkv

theorem keysLower_objSet {hs : List (String × String)} (k v : String)
    (hk : strLower k = k) (hl : keysLower hs) : keysLower (objSet hs k v) := by
  unfold objSet
  split
  · intro kv hkv
    rw [List.mem_map] at hkv
    obtain ⟨p, hp, hfp⟩ := hkv
    by_cases hpk : p.1 = k
    · rw [if_pos hpk] at hfp
      rw [← hfp]
      exact hk
    · rw [if_neg hpk] at hfp
      rw [← hfp]
      exact hl p hp
  · intro kv hkv
    rcases List.mem_append.1 hkv with h | h
    · exact hl kv h
    · rw [List.mem_singleton] at h
      rw [h]
      exact hk

theorem keysLower_foldl_objSet (l acc : List (String × String))
    (ha : keysLower acc) :
    keysLower (l.foldl (fun a kv => objSet a (strLower kv.1) kv.2) acc) := by
  induction l generalizing acc with
  | nil => exact ha
  | cons kv rest ih =>
    exact ih _ (keysLower_objSet _ _ (strLower_idem _) ha)

theorem keysLower_mkHeaders (l : List (String × String)) :
    keysLower (mkHeaders l) :=
  keysLower_foldl_objSet l [] keysLower_nil

theorem keysLower_hSet {hs : List (String × String)} (n v : String)
    (hl : keysLower hs) : keysLower (hSet hs n v) :=
  keysLower_objSet _ _ (strLower_idem n) hl

theorem keysLower_hDelete {hs : List (String × String)} (n : String)
    (hl : keysLower hs) : keysLower (hDelete hs n) := by
  intro kv hkv
  exact hl kv (List.mem_of_mem_filter hkv)

theorem hGet_objSet_hit (hs : List (String × String)) (k v m : String)
    (hk : strLower k = k) (hm : strLower m = k) (hl : keysLower hs) :
    hGet (objSet hs k v) m = some v := by
  unfold objSet hGet
  rw [hm]
  split
  · rename_i hany
    have : ∀ (l : List (String × String)), keysLower l →
        l.any (fun p => p.1 = k) = true →
        (l.map (fun p => if p.1 = k then (k, v) else p)).find?
          (fun kv => strLower kv.1 = k) = some (k, v) := by
      intro l
      induction l with
      | nil => intro _ h; cases h
      | cons p rest ih =>
        intro hl2 hany2
        by_cases hpk : p.1 = k
        · simp only [List.map_cons, if_pos hpk, List.find?_cons]
          rw [show decide (strLower k = k) = true from by simp [hk]]
        · simp only [List.map_cons, if_neg hpk, List.find?_cons]
          have hple : strLower p.1 = p.1 := hl2 p (by simp)
          rw [show decide (strLower p.1 = k) = false from by
            simp [hple, hpk]]
          refine ih (fun kv hkv => hl2 kv (by simp [hkv])) ?_
          simp [hpk] at hany2
          rw [List.any_eq_true]
          obtain ⟨x, hx⟩ := hany2
          exact ⟨(k, x), hx, by simp⟩
    rw [this hs hl hany]
    rfl
  · rename_i hany
    rw [List.find?_append]
    have h1 : hs.find? (fun kv => strLower kv.1 = k) = none := by
      rw [List.find?_eq_none]
      intro kv hkv
      have hkle : strLower kv.1 = kv.1 := hl kv hkv
      simp only [hkle, decide_eq_true_eq]
      intro hc
      exact hany (by rw [List.any_eq_true]; exact ⟨kv, hkv, by simp [hc]⟩)
    rw [h1, show List.find? (fun kv => decide (strLower kv.1 = k)) [(k, v)]
        = some (k, v) from by simp [hk]]
    rfl

theorem hGet_objSet_other (hs : List (String × String)) (k v m : String)
    (hk : strLower k = k) (hm : strLower m ≠ k) :
    hGet (objSet hs k v) m = hGet hs m := by
  unfold objSet hGet
  split
  · have : ∀ (l : List (String × String)),
        (l.map (fun p => if p.1 = k then (k, v) else p)).find?
          (fun kv => strLower kv.1 = strLower m)
        = l.find? (fun kv => strLower kv.1 = strLower m) := by
      intro l
      induction l with
      | nil => rfl
      | cons p rest ih =>
        by_cases hpk : p.1 = k
        · simp only [List.map_cons, if_pos hpk, List.find?_cons]
          rw [show decide (strLower k = strLower m) = false from by
              simp [hk]; intro hc; exact hm hc.symm,
            show decide (strLower p.1 = strLower m) = false from by
              simp only [hpk, hk, decide_eq_false_iff_not]
              intro hc
              exact hm hc.symm, ih]
        · simp only [List.map_cons, if_neg hpk, List.find?_cons]
          cases decide (strLower p.1 = strLower m)
          · exact ih
          · rfl
    rw [this]
  · rw [List.find?_append]
    have h2 : List.find? (fun kv => decide (strLower kv.1 = strLower m))
        [(k, v)] = none := by
      simp only [List.find?_cons, List.find?_nil]
      rw [show decide (strLower k = strLower m) = false from by
        simp [hk]; intro hc; exact hm hc.symm]
    rw [h2]
    cases hs.find? (fun kv => decide (strLower kv.1 = strLower m)) <;> rfl

theorem hGet_hSet_self (hs : List (String × String)) (n v : String)
    (hl : keysLower hs) : hGet (hSet hs n v) n = some v :=
  hGet_objSet_hit hs (strLower n) v n (strLower_idem n) rfl hl

theorem hGet_hSet_other (hs : List (String × String)) (n v m : String)
    (hm : strLower m ≠ strLower n) : hGet (hSet hs n v) m = hGet hs m :=
  hGet_objSet_other hs (strLower n) v m (strLower_idem n) hm

theorem hGet_addMissHeaders_status (r : Response) :
    hGet (addMissHeaders r).headers "X-Cache-Status" = some "MISS" := by
  unfold addMissHeaders
  dsimp only
  rw [hGet_hSet_other _ _ _ _ (by decide),
    hGet_hSet_self _ _ _ (keysLower_mkHeaders _)]

theorem hGet_addMissHeaders_age (r : Response) :
    hGet (addMissHeaders r).headers "X-Cache-Age" = some "0" := by
  unfold addMissHeaders
  dsimp only
  exact hGet_hSet_self _ _ _
    (keysLower_hSet _ _ (keysLower_mkHeaders _))

theorem hGet_status_age (hs : List (String × String)) (st ag : String)
    (hl : keysLower hs) :
    hGet (hSet (hSet hs "X-Cache-Status" st) "X-Cache-Age" ag)
        "X-Cache-Status" = some st
    ∧ hGet (hSet (hSet hs "X-Cache-Status" st) "X-Cache-Age" ag)
        "X-Cache-Age" = some ag := by
  constructor
  · rw [hGet_hSet_other _ _ _ _ (by decide), hGet_hSet_self _ _ _ hl]
  · exact hGet_hSet_self _ _ _ (keysLower_hSet _ _ hl)

/-- The response decoded from a cache entry carries
`X-Cache-Status: <label>` and an `X-Cache-Age` header with the entry's age
in seconds. -/
theorem cacheToResponse_cache_headers (entry : CacheEntry) (st : String)
    (now : Int) :
    hGet (cacheToResponse entry st now).headers "X-Cache-Status" = some st
    ∧ hGet (cacheToResponse entry st now).headers "X-Cache-Age"
        = some (toString (Int.fdiv (now - entry.timestamp) 1000)) := by
  unfold cacheToResponse
  dsimp only
  have kl0 : keysLower (hDelete (mkHeaders entry.headers) "content-length") :=
    keysLower_hDelete _ (keysLower_mkHeaders _)
  have kl1 : keysLower (if !jsFalsyStr entry.contentType
        ∧ jsFalsyStr (hGet (hDelete (mkHeaders entry.headers)
          "content-length") "content-type") = true
      then hSet (hDelete (mkHeaders entry.headers) "content-length")
        "content-type" (entry.contentType.getD "")
      else hDelete (mkHeaders entry.headers) "content-length") := by
    split
    · exact keysLower_hSet _ _ kl0
    · exact kl0
  have hsa := hGet_status_age _ st (toString (Int.fdiv (now - entry.timestamp) 1000)) kl1
  split
  · exact hsa
  · exact ⟨by rw [hGet_hSet_other _ _ _ _ (by decide)]; exact hsa.1,
      by rw [hGet_hSet_other _ _ _ _ (by decide)]; exact hsa.2⟩

/-- C5: a cached entry whose `revalidateAfter` lies in the past and whose
`expiresAt` lies in the future is returned immediately, decoded, with
`X-Cache-Status: STALE`, and exactly one detached background refresh is
scheduled; the refresh re-fetches the origin and, the fresh response being
2xx (and the method cacheable), re-encodes it and overwrites the entry
under the same key with a freshly computed TTL. -/
theorem swr_stale_path (url : String) (init : Option CachedFetchOptions)
    (env : FetchEnv) (entry : CacheEntry) (pb : ProcessedBody)
    (ra ex : Int) (fresh : Response)
    (hns : cacheOptionOf init ≠ .noStore)
    (h0 : optRevalidate init ≠ .num 0)
    (hpb : processBodyForCacheKey (bodyOf init) = .ok pb)
    (hget : env.storeGet = .ok (some entry))
    (hra : entry.revalidateAfter = some ra) (hra0 : 0 < ra)
    (hrapast : ra < env.now)
    (hex : entry.expiresAt = some ex) (hexfut : env.now ≤ ex)
    (hmeth : isCacheableMethod (methodOf init) = true)
    (hbg : env.originBg = .ok fresh) (hok : responseOk fresh = true) :
    cachedFetch url init env
      = .ok { resp := cacheToResponse entry "STALE" env.now,
              writes := [⟨cacheKeyOf url init pb,
                responseToCache fresh init env.nowBg,
                computeTTL (responseToCache fresh init env.nowBg).expiresAt
                  env.nowBg⟩],
              bgScheduled := true, storeQueried := true,
              usedOrigin := false }
    ∧ hGet (cacheToResponse entry "STALE" env.now).headers "X-Cache-Status"
        = some "STALE" := by
  have hexp : isCacheEntryExpired entry env.now = false := by
    unfold isCacheEntryExpired
    rw [hex]
    rw [if_neg (by simp [jsFalsyInt]; omega)]
    simp only [Option.getD_some]
    rw [decide_eq_false (by omega)]
  have hstale : needsRevalidation entry env.now = true := by
    unfold needsRevalidation
    rw [hra]
    rw [if_neg (by simp [jsFalsyInt]; omega)]
    simp only [Option.getD_some]
    rw [decide_eq_true (by omega)]
  constructor
  · rw [cachedFetch_serve url init env entry pb hns h0 hpb hget hexp,
      hstale]
    unfold backgroundRefresh
    rw [hbg]
    simp [hok, hmeth]
  · exact (cacheToResponse_cache_headers entry "STALE" env.now).1

/-- Concrete sample data for the stale-while-revalidate scenario. -/
def staleEntryEx : CacheEntry :=
  { data := "old", headers := [], status := 200, statusText := "OK",
    timestamp := 500, revalidateAfter := some 900, expiresAt := some 5000 }

def freshRespEx : Response :=
  { status := 200, statusText := "OK",
    headers := [("content-type", "text/plain")], body := [104, 105] }

def staleEnvEx : FetchEnv :=
  { originFirst := .error "unused", originFallback := .error "unused",
    originBg := .ok freshRespEx, storeGet := .ok (some staleEntryEx),
    now := 1000, nowBg := 1100 }

/-- Witness for C5: a concrete stale-but-unexpired GET entry is served as
STALE with one background refresh write. -/
theorem swr_stale_path_witness :
    cacheOptionOf (some { method := some "GET" }) ≠ .noStore
    ∧ optRevalidate (some { method := some "GET" }) ≠ .num 0
    ∧ processBodyForCacheKey (bodyOf (some { method := some "GET" }))
        = .ok ⟨[], none⟩
    ∧ staleEntryEx.revalidateAfter = some 900
    ∧ staleEnvEx.originBg = .ok freshRespEx
    ∧ responseOk freshRespEx = true
    ∧ (cachedFetch "https://x/a" (some { method := some "GET" }) staleEnvEx
        = .ok { resp := cacheToResponse staleEntryEx "STALE" staleEnvEx.now,
                writes := [⟨cacheKeyOf "https://x/a"
                    (some { method := some "GET" }) ⟨[], none⟩,
                  responseToCache freshRespEx (some { method := some "GET" })
                    staleEnvEx.nowBg,
                  computeTTL (responseToCache freshRespEx
                    (some { method := some "GET" })
                    staleEnvEx.nowBg).expiresAt staleEnvEx.nowBg⟩],
                bgScheduled := true, storeQueried := true,
                usedOrigin := false }
      ∧ hGet (cacheToResponse staleEntryEx "STALE"
          staleEnvEx.now).headers "X-Cache-Status" = some "STALE") :=
  ⟨by decide, by decide, rfl, rfl, rfl, by decide,
   swr_stale_path "https://x/a" (some { method := some "GET" }) staleEnvEx
     staleEntryEx ⟨[], none⟩ 900 5000 freshRespEx
     (by decide) (by decide) rfl rfl rfl (by decide) (by decide) rfl
     (by decide) (by decide) rfl (by decide)⟩

theorem responseToCache_status (resp : Response)
    (opts : Option CachedFetchOptions) (now : Int) :
    (responseToCache resp opts now).status = resp.status := by
  simp only [responseToCache]

theorem responseOk_bounds {resp : Response} (h : responseOk resp = true) :
    200 ≤ resp.status ∧ resp.status ≤ 299 := by
  unfold responseOk at h
  rw [Bool.and_eq_true, decide_eq_true_eq, decide_eq_true_eq] at h
  exact h

theorem backgroundRefresh_err (cacheKey : String)
    (init : Option CachedFetchOptions) (method : String) (env : FetchEnv)
    (e : String) (hbg : env.originBg = .error e) :
    backgroundRefresh cacheKey init method env = [] := by
  unfold backgroundRefresh
  rw [hbg]

theorem backgroundRefresh_ok (cacheKey : String)
    (init : Option CachedFetchOptions) (method : String) (env : FetchEnv)
    (fresh : Response) (hbg : env.originBg = .ok fresh) :
    backgroundRefresh cacheKey init method env
      = if responseOk fresh && isCacheableMethod method then
          [⟨cacheKey, responseToCache fresh init env.nowBg,
            computeTTL (responseToCache fresh init env.nowBg).expiresAt
              env.nowBg⟩]
        else [] := by
  unfold backgroundRefresh
  rw [hbg]

theorem backgroundRefresh_writes_inv (cacheKey : String)
    (init : Option CachedFetchOptions) (method : String) (env : FetchEnv)
    (w : StoreWrite)
    (hw : w ∈ backgroundRefresh cacheKey init method env) :
    (200 ≤ w.entry.status ∧ w.entry.status ≤ 299)
      ∧ isCacheableMethod method = true := by
  cases hbg : env.originBg with
  | error e => rw [backgroundRefresh_err _ _ _ _ _ hbg] at hw; cases hw
  | ok fresh =>
    rw [backgroundRefresh_ok _ _ _ _ _ hbg] at hw
    by_cases hc : responseOk fresh && isCacheableMethod method
    · rw [if_pos hc] at hw
      rw [List.mem_singleton] at hw
      rw [Bool.and_eq_true] at hc
      subst hw
      exact ⟨by rw [responseToCache_status]; exact responseOk_bounds hc.1,
        hc.2⟩
    · rw [if_neg hc] at hw
      cases hw

theorem missPath_writes_inv (cacheKey : String)
    (init : Option CachedFetchOptions) (method : String) (env : FetchEnv)
    (r : FetchResult) (w : StoreWrite)
    (h : missPath cacheKey init method env = .ok r) (hw : w ∈ r.writes) :
    (200 ≤ w.entry.status ∧ w.entry.status ≤ 299)
      ∧ isCacheableMethod method = true := by
  unfold missPath at h
  cases ho : env.originFirst with
  | error e => rw [ho] at h; cases h
  | ok response =>
    rw [ho] at h
    injection h with h
    subst h
    dsimp only at hw
    by_cases hc : responseOk response && isCacheableMethod method
    · rw [if_pos hc] at hw
      rw [List.mem_singleton] at hw
      rw [Bool.and_eq_true] at hc
      subst hw
      exact ⟨by rw [responseToCache_status]; exact responseOk_bounds hc.1,
        hc.2⟩
    · rw [if_neg hc] at hw
      cases hw

theorem servePath_writes_inv (cacheKey : String)
    (init : Option CachedFetchOptions) (method : String) (env : FetchEnv)
    (entry : CacheEntry) (r : FetchResult) (w : StoreWrite)
    (h : servePath cacheKey init method env entry = .ok r)
    (hw : w ∈ r.writes) :
    (200 ≤ w.entry.status ∧ w.entry.status ≤ 299)
      ∧ isCacheableMethod method = true := by
  by_cases hexp : isCacheEntryExpired entry env.now
  · rw [servePath_expired _ _ _ _ _ hexp] at h
    exact missPath_writes_inv cacheKey init method env r w h hw
  · rw [Bool.not_eq_true] at hexp
    rw [servePath_live _ _ _ _ _ hexp] at h
    injection h with h
    subst h
    dsimp only at hw
    by_cases hst : needsRevalidation entry env.now
    · rw [if_pos hst] at hw
      exact backgroundRefresh_writes_inv cacheKey init method env w hw
    · rw [if_neg hst] at hw
      cases hw

/-- C6: every store write dispatched by `cachedFetch` — on the miss path
and on the background-refresh path alike — stores an entry whose status is
in the 2xx range, and only when the request method is GET, POST or PUT;
non-2xx origin responses are never written. -/
theorem storage_restriction (url : String)
    (init : Option CachedFetchOptions) (env : FetchEnv) (r : FetchResult)
    (w : StoreWrite) (h : cachedFetch url init env = .ok r)
    (hw : w ∈ r.writes) :
    (200 ≤ w.entry.status ∧ w.entry.status ≤ 299)
      ∧ isCacheableMethod (methodOf init) = true := by
  by_cases hbp : cacheOptionOf init = .noStore ∨ optRevalidate init = .num 0
  · unfold cachedFetch at h
    rw [if_pos hbp] at h
    cases ho : env.originFirst with
    | error e => rw [ho] at h; cases h
    | ok response =>
      rw [ho] at h
      injection h with h
      subst h
      cases hw
  · have hns : cacheOptionOf init ≠ .noStore := fun hc => hbp (Or.inl hc)
    have h0 : optRevalidate init ≠ .num 0 := fun hc => hbp (Or.inr hc)
    cases hpb : processBodyForCacheKey (bodyOf init) with
    | error e =>
      unfold cachedFetch at h
      rw [if_neg hbp, hpb] at h
      cases h
    | ok pb =>
      rw [cachedFetch_not_bypass url init env pb hns h0 hpb] at h
      cases htry : tryPath (cacheKeyOf url init pb) init (methodOf init)
          (cacheOptionOf init) env with
      | ok r2 =>
        rw [htry] at h
        injection h with h
        subst h
        rw [tryPath_get _ _ _ _ _ hns] at htry
        cases hget : env.storeGet with
        | error e => rw [hget] at htry; cases htry
        | ok optEntry =>
          rw [hget] at htry
          cases optEntry with
          | some entry =>
            exact servePath_writes_inv _ _ _ _ _ _ _ htry hw
          | none =>
            exact missPath_writes_inv _ _ _ _ _ _ htry hw
      | error e =>
        rw [htry] at h
        unfold fallbackPath at h
        cases hfb : env.originFallback with
        | error e2 => rw [hfb] at h; cases h
        | ok fb =>
          rw [hfb] at h
          injection h with h
          subst h
          cases hw

def missEnvEx : FetchEnv :=
  { originFirst := .ok freshRespEx, originFallback := .error "unused",
    originBg := .error "unused", storeGet := .ok none,
    now := 1000, nowBg := 1100 }

def missWriteEx : StoreWrite :=
  ⟨cacheKeyOf "https://x/a" none ⟨[], none⟩,
   responseToCache freshRespEx none 1000,
   computeTTL (responseToCache freshRespEx none 1000).expiresAt 1000⟩

def missResultEx : FetchResult :=
  { resp := addMissHeaders freshRespEx, writes := [missWriteEx],
    bgScheduled := false, storeQueried := true, usedOrigin := true }

/-- Witness for C6: the write performed on a concrete 2xx GET miss stores
a 2xx entry for a cacheable method. -/
theorem storage_restriction_witness :
    cachedFetch "https://x/a" none missEnvEx = .ok missResultEx
    ∧ missWriteEx ∈ missResultEx.writes
    ∧ ((200 ≤ missWriteEx.entry.status ∧ missWriteEx.entry.status ≤ 299)
        ∧ isCacheableMethod (methodOf none) = true) := by
  have h : cachedFetch "https://x/a" none missEnvEx = .ok missResultEx := by
    rw [cachedFetch_missNone "https://x/a" none missEnvEx ⟨[], none⟩
      (by decide) (by decide) rfl rfl freshRespEx rfl]
    rw [show (responseOk freshRespEx
        && isCacheableMethod (methodOf none)) = true from by decide]
    rfl
  have hmem : missWriteEx ∈ missResultEx.writes :=
    show missWriteEx ∈ [missWriteEx] from List.mem_singleton_self _
  exact ⟨h, hmem,
    storage_restriction "https://x/a" none missEnvEx missResultEx
      missWriteEx h hmem⟩

/-- C7 (amended): any store-read failure makes `cachedFetch` fall back to
a direct origin fetch tagged `X-Cache-Status: MISS` (store writes are
fire-and-forget and cannot raise); but failures in body normalisation /
cache-key derivation happen before the `try` block and are NOT caught —
see the counterexample. -/
theorem store_failure_fallback (url : String)
    (init : Option CachedFetchOptions) (env : FetchEnv) (pb : ProcessedBody)
    (e : String) (fb : Response)
    (hns : cacheOptionOf init ≠ .noStore)
    (h0 : optRevalidate init ≠ .num 0)
    (hpb : processBodyForCacheKey (bodyOf init) = .ok pb)
    (hget : env.storeGet = .error e)
    (hfb : env.originFallback = .ok fb) :
    cachedFetch url init env
      = .ok { resp := addMissHeaders fb, writes := [], bgScheduled := false,
              storeQueried := true, usedOrigin := true }
    ∧ hGet (addMissHeaders fb).headers "X-Cache-Status" = some "MISS" := by
  constructor
  · rw [cachedFetch_storeGet_error url init env pb e hns h0 hpb hget]
    unfold fallbackPath
    rw [hfb]
  · exact hGet_addMissHeaders_status fb

def storeFailEnvEx : FetchEnv :=
  { originFirst := .error "unused", originFallback := .ok freshRespEx,
    originBg := .error "unused", storeGet := .error "kv store down",
    now := 1000, nowBg := 1100 }

/-- Witness for C7 (amended): a failing store read on a concrete request
returns the fallback origin response tagged MISS instead of raising. -/
theorem store_failure_fallback_witness :
    cacheOptionOf none ≠ .noStore
    ∧ optRevalidate none ≠ .num 0
    ∧ storeFailEnvEx.storeGet = .error "kv store down"
    ∧ (cachedFetch "https://x/a" none storeFailEnvEx
        = .ok { resp := addMissHeaders freshRespEx, writes := [],
                bgScheduled := false, storeQueried := true,
                usedOrigin := true }
      ∧ hGet (addMissHeaders freshRespEx).headers "X-Cache-Status"
          = some "MISS") :=
  ⟨by decide, by decide, rfl,
   store_failure_fallback "https://x/a" none storeFailEnvEx ⟨[], none⟩
     "kv store down" freshRespEx (by decide) (by decide) rfl rfl rfl⟩

/-- Counterexample to C7 as stated: with a healthy store and origin, a
request whose body is a failing stream makes the pre-`try` body
normalisation for cache-key derivation throw, and `cachedFetch` rejects —
the failure raises past the caller instead of falling back to a MISS
fetch. -/
theorem key_derivation_failure_raises :
    cachedFetch "https://x/a" (some { body := some (.stream [] true) })
      { originFirst := .ok freshRespEx, originFallback := .ok freshRespEx,
        originBg := .ok freshRespEx, storeGet := .ok none,
        now := 1000, nowBg := 1100 }
      = .error "stream read failed" := by
  rfl

theorem missHeaders_conds (x : Response) :
    (hGet (addMissHeaders x).headers "X-Cache-Status" = some "HIT"
      ∨ hGet (addMissHeaders x).headers "X-Cache-Status" = some "STALE"
      ∨ hGet (addMissHeaders x).headers "X-Cache-Status" = some "MISS")
    ∧ (∃ v, hGet (addMissHeaders x).headers "X-Cache-Age" = some v)
    ∧ (hGet (addMissHeaders x).headers "X-Cache-Status" = some "MISS" →
        hGet (addMissHeaders x).headers "X-Cache-Age" = some "0") :=
  ⟨.inr (.inr (hGet_addMissHeaders_status x)),
   ⟨"0", hGet_addMissHeaders_age x⟩,
   fun _ => hGet_addMissHeaders_age x⟩

theorem serveHeaders_conds (entry : CacheEntry) (st : String) (now : Int)
    (hst : st = "HIT" ∨ st = "STALE") :
    (hGet (cacheToResponse entry st now).headers "X-Cache-Status"
        = some "HIT"
      ∨ hGet (cacheToResponse entry st now).headers "X-Cache-Status"
        = some "STALE"
      ∨ hGet (cacheToResponse entry st now).headers "X-Cache-Status"
        = some "MISS")
    ∧ (∃ v, hGet (cacheToResponse entry st now).headers "X-Cache-Age"
        = some v)
    ∧ (hGet (cacheToResponse entry st now).headers "X-Cache-Status"
        = some "MISS" →
       hGet (cacheToResponse entry st now).headers "X-Cache-Age"
        = some "0") := by
  have hh := cacheToResponse_cache_headers entry st now
  refine ⟨?_, ⟨_, hh.2⟩, ?_⟩
  · rcases hst with h | h
    · exact .inl (by rw [hh.1, h])
    · exact .inr (.inl (by rw [hh.1, h]))
  · intro hc
    rw [hh.1] at hc
    injection hc with hc
    rcases hst with h | h <;> rw [h] at hc <;> exact absurd hc (by decide)

/-- C9: every response `cachedFetch` returns — on the bypass, HIT, STALE,
miss and error-fallback paths alike — carries an `X-Cache-Status` header
valued `HIT`, `STALE` or `MISS`, and an `X-Cache-Age` header, the latter
equal to `"0"` whenever the status is `MISS`. -/
theorem cache_status_header_invariant (url : String)
    (init : Option CachedFetchOptions) (env : FetchEnv) (r : FetchResult)
    (h : cachedFetch url init env = .ok r) :
    (hGet r.resp.headers "X-Cache-Status" = some "HIT"
      ∨ hGet r.resp.headers "X-Cache-Status" = some "STALE"
      ∨ hGet r.resp.headers "X-Cache-Status" = some "MISS")
    ∧ (∃ v, hGet r.resp.headers "X-Cache-Age" = some v)
    ∧ (hGet r.resp.headers "X-Cache-Status" = some "MISS" →
        hGet r.resp.headers "X-Cache-Age" = some "0") := by
  by_cases hbp : cacheOptionOf init = .noStore ∨ optRevalidate init = .num 0
  · unfold cachedFetch at h
    rw [if_pos hbp] at h
    cases ho : env.originFirst with
    | error e => rw [ho] at h; cases h
    | ok response =>
      rw [ho] at h
      injection h with h
      subst h
      exact missHeaders_conds response
  · have hns : cacheOptionOf init ≠ .noStore := fun hc => hbp (Or.inl hc)
    have h0 : optRevalidate init ≠ .num 0 := fun hc => hbp (Or.inr hc)
    cases hpb : processBodyForCacheKey (bodyOf init) with
    | error e =>
      unfold cachedFetch at h
      rw [if_neg hbp, hpb] at h
      cases h
    | ok pb =>
      rw [cachedFetch_not_bypass url init env pb hns h0 hpb] at h
      cases htry : tryPath (cacheKeyOf url init pb) init (methodOf init)
          (cacheOptionOf init) env with
      | ok r2 =>
        rw [htry] at h
        injection h with h
        subst h
        rw [tryPath_get _ _ _ _ _ hns] at htry
        cases hget : env.storeGet with
        | error e => rw [hget] at htry; cases htry
        | ok optEntry =>
          rw [hget] at htry
          cases optEntry with
          | some entry =>
            replace htry : servePath (cacheKeyOf url init pb) init
                (methodOf init) env entry = .ok r2 := htry
            by_cases hexp : isCacheEntryExpired entry env.now
            · rw [servePath_expired _ _ _ _ _ hexp] at htry
              unfold missPath at htry
              cases ho : env.originFirst with
              | error e => rw [ho] at htry; cases htry
              | ok response =>
                rw [ho] at htry
                injection htry with htry
                subst htry
                exact missHeaders_conds response
            · rw [Bool.not_eq_true] at hexp
              rw [servePath_live _ _ _ _ _ hexp] at htry
              injection htry with htry
              subst htry
              refine serveHeaders_conds entry _ env.now ?_
              by_cases hst : needsRevalidation entry env.now = true
              · rw [if_pos hst]
                exact .inr rfl
              · rw [if_neg hst]
                exact .inl rfl
          | none =>
            replace htry : missPath (cacheKeyOf url init pb) init
                (methodOf init) env = .ok r2 := htry
            unfold missPath at htry
            cases ho : env.originFirst with
            | error e => rw [ho] at htry; cases htry
            | ok response =>
              rw [ho] at htry
              injection htry with htry
              subst htry
              exact missHeaders_conds response
      | error e =>
        rw [htry] at h
        unfold fallbackPath at h
        cases hfb : env.originFallback with
        | error e2 => rw [hfb] at h; cases h
        | ok fb =>
          rw [hfb] at h
          injection h with h
          subst h
          exact missHeaders_conds fb

/-- Witness for C9: the concrete miss run from the C6 scenario carries
`X-Cache-Status: MISS` with `X-Cache-Age: 0`. -/
theorem cache_status_header_invariant_witness :
    cachedFetch "https://x/a" none missEnvEx = .ok missResultEx
    ∧ ((hGet missResultEx.resp.headers "X-Cache-Status" = some "HIT"
        ∨ hGet missResultEx.resp.headers "X-Cache-Status" = some "STALE"
        ∨ hGet missResultEx.resp.headers "X-Cache-Status" = some "MISS")
      ∧ (∃ v, hGet missResultEx.resp.headers "X-Cache-Age" = some v)
      ∧ (hGet missResultEx.resp.headers "X-Cache-Status" = some "MISS" →
          hGet missResultEx.resp.headers "X-Cache-Age" = some "0")) := by
  have h : cachedFetch "https://x/a" none missEnvEx = .ok missResultEx := by
    rw [cachedFetch_missNone "https://x/a" none missEnvEx ⟨[], none⟩
      (by decide) (by decide) rfl rfl freshRespEx rfl]
    rw [show (responseOk freshRespEx
        && isCacheableMethod (methodOf none)) = true from by decide]
    rfl
  exact ⟨h, cache_status_header_invariant "https://x/a" none missEnvEx
    missResultEx h⟩

theorem processBody_chunks_shape (b : Option BodyInit) (pb : ProcessedBody)
    (h : processBodyForCacheKey b = .ok pb) :
    pb.chunks = [] ∨ ∃ s, pb.chunks = [s] := by
  cases b with
  | none =>
    injection h with h
    rw [← h]
    exact .inl rfl
  | some bb =>
    cases bb with
    | bytes l =>
      injection h with h
      rw [← h]
      exact .inr ⟨_, rfl⟩
    | stream chunks fails =>
      replace h : (if fails = true
          then (Except.error "stream read failed" :
            Except String ProcessedBody)
          else Except.ok ⟨[bytesToStr (concatBytes chunks)],
            some (.bytes (concatBytes chunks))⟩) = .ok pb := h
      by_cases hf : fails = true
      · rw [if_pos hf] at h
        cases h
      · rw [if_neg hf] at h
        injection h with h
        rw [← h]
        exact .inr ⟨_, rfl⟩
    | form entries =>
      injection h with h
      rw [← h]
      exact .inr ⟨_, rfl⟩
    | urlParams entries =>
      injection h with h
      rw [← h]
      exact .inr ⟨_, rfl⟩
    | blob text mediaType =>
      injection h with h
      rw [← h]
      exact .inr ⟨_, rfl⟩
    | str s =>
      replace h : (if s = ""
          then (Except.ok ⟨[], none⟩ : Except String ProcessedBody)
          else Except.ok ⟨[s], none⟩) = .ok pb := h
      by_cases hs : s = ""
      · rw [if_pos hs] at h
        injection h with h
        rw [← h]
        exact .inl rfl
      · rw [if_neg hs] at h
        injection h with h
        rw [← h]
        exact .inr ⟨_, rfl⟩
    | other json =>
      injection h with h
      rw [← h]
      exact .inr ⟨_, rfl⟩

theorem jsonStrL_length_ge (s : String) : 2 ≤ (jsonStrL s).length := by
  unfold jsonStrL
  simp

theorem jsonStrArrL_inj_shape {c1 c2 : List String}
    (h1 : c1 = [] ∨ ∃ s, c1 = [s]) (h2 : c2 = [] ∨ ∃ s, c2 = [s])
    (heq : jsonStrArrL c1 = jsonStrArrL c2) : c1 = c2 := by
  rcases h1 with rfl | ⟨s1, rfl⟩ <;> rcases h2 with rfl | ⟨s2, rfl⟩
  · rfl
  · exfalso
    have hl := congrArg List.length heq
    simp only [jsonStrArrL, List.map_nil, List.map_cons, jsonCommaJoin,
      List.length_cons, List.length_append, List.nil_append,
      List.length_nil] at hl
    have := jsonStrL_length_ge s2
    omega
  · exfalso
    have hl := congrArg List.length heq
    simp only [jsonStrArrL, List.map_nil, List.map_cons, jsonCommaJoin,
      List.length_cons, List.length_append, List.nil_append,
      List.length_nil] at hl
    have := jsonStrL_length_ge s1
    omega
  · unfold jsonStrArrL at heq
    simp only [List.map_cons, List.map_nil, jsonCommaJoin] at heq
    have h3 := (List.cons.inj heq).2
    have h4 := List.append_cancel_right h3
    rw [jsonStrL_injective h4]

theorem cacheKeyMaterialL_chunks_inj (url : String) (init : RequestInit)
    (pfx : Option String) {c1 c2 : List String}
    (h1 : c1 = [] ∨ ∃ s, c1 = [s]) (h2 : c2 = [] ∨ ∃ s, c2 = [s])
    (heq : cacheKeyMaterialL url init pfx c1
      = cacheKeyMaterialL url init pfx c2) : c1 = c2 := by
  unfold cacheKeyMaterialL at heq
  simp only [jsonCommaJoin] at heq
  have h := (List.cons.inj heq).2
  replace h := List.append_cancel_right h
  iterate 12
    replace h := List.append_cancel_left h
    replace h := (List.cons.inj h).2
  exact jsonStrArrL_inj_shape h1 h2 h

/-- C8 (amended): for two requests identical except in body content, if
the normalised body chunk lists differ then the serialised key material —
the exact string `generateCacheKey` hashes — differs, so the derived keys
can only coincide through a SHA-256 collision; bodies that normalise to
identical chunk lists, however, receive identical keys (see the
counterexample). -/
theorem cacheKey_material_body_sensitive (url : String) (init : RequestInit)
    (pfx : Option String) (b1 b2 : Option BodyInit)
    (pb1 pb2 : ProcessedBody)
    (e1 : processBodyForCacheKey b1 = .ok pb1)
    (e2 : processBodyForCacheKey b2 = .ok pb2)
    (hne : pb1.chunks ≠ pb2.chunks) :
    cacheKeyMaterial url { init with body := b1 } pfx pb1.chunks
      ≠ cacheKeyMaterial url { init with body := b2 } pfx pb2.chunks := by
  intro h
  apply hne
  unfold cacheKeyMaterial at h
  injection h with h
  have h3 : cacheKeyMaterialL url init pfx pb1.chunks
      = cacheKeyMaterialL url init pfx pb2.chunks := h
  exact cacheKeyMaterialL_chunks_inj url init pfx
    (processBody_chunks_shape b1 pb1 e1)
    (processBody_chunks_shape b2 pb2 e2) h3

/-- Witness for C8 (amended): two plain-text bodies `"x"` and `"y"`
produce different key material. -/
theorem cacheKey_material_body_sensitive_witness :
    processBodyForCacheKey (some (.str "x")) = .ok ⟨["x"], none⟩
    ∧ processBodyForCacheKey (some (.str "y")) = .ok ⟨["y"], none⟩
    ∧ (["x"] : List String) ≠ ["y"]
    ∧ cacheKeyMaterial "https://x/a"
        { ({} : RequestInit) with body := some (.str "x") } none ["x"]
      ≠ cacheKeyMaterial "https://x/a"
        { ({} : RequestInit) with body := some (.str "y") } none ["y"] :=
  ⟨rfl, rfl, by decide,
   cacheKey_material_body_sensitive "https://x/a" {} none
     (some (.str "x")) (some (.str "y")) ⟨["x"], none⟩ ⟨["y"], none⟩
     rfl rfl (by decide)⟩

/-- Counterexample to C8 as stated: two distinct form bodies — entries
`a=b, c=d` versus the single entry `a = "b,c=d"` — serialise to the same
comma-joined chunk, so the derived cache keys are identical. -/
theorem distinct_bodies_same_cache_key :
    (some (BodyInit.form [("a", .str "b"), ("c", .str "d")])
        ≠ some (BodyInit.form [("a", .str "b,c=d")]))
    ∧ generateCacheKey "https://api.example.com/items"
        { body := some (.form [("a", .str "b"), ("c", .str "d")]) } none
      = generateCacheKey "https://api.example.com/items"
        { body := some (.form [("a", .str "b,c=d")]) } none := by
  constructor
  · decide
  · rfl
